import Mathlib

/-!
Verification development for the Cosmic Deception game server (`src/server.js`).

The server keeps, per room, a roster of players and a game state (phase,
role rosters, tasks, votes, meeting flags, kill cooldowns) and mutates them
in socket event handlers.  This file is a shallow embedding of that data
model and of the handlers the claims are about:

* `generateRoomCode` / `createRoom`      (server.js 117-170)
* `assignRoles` / `resetGame`            (server.js 121-229)
* `playerMove`                           (server.js 454-473)
* `updatePlayer`                         (server.js 339-366)
* `completeTask`                         (server.js 650-687)
* `killPlayer`                           (server.js 690-765)
* `reportBody` / `emergencyMeeting`      (server.js 476-567)
* `endMeeting`                           (server.js 793-821)
* `handleDisconnect`                     (server.js 834-890)

Conventions of the embedding:

* JS numbers that hold coordinates, timestamps and durations are modelled
  as rationals (`ℚ`).
* `uuid` player ids and socket ids are modelled as `Nat`.
* JS `Map`s are modelled as association lists in insertion order
  (`Map.set` replaces an existing key in place, otherwise appends;
  `Map.delete` removes the key; `Map.get` is the first — and by the map
  invariant only — binding).
* JS objects used as dictionaries (`votes`, `imposterKillCooldowns`) are
  modelled the same way.
* `Math.random()` draws are passed in as explicit parameters (a rational
  in `[0,1)`, or the derived index / string, as appropriate for each call
  site), so every function is a pure function of the state and the draws.
* `Math.sqrt(dx*dx + dy*dy) > 150` is modelled by the equivalent
  `dx*dx + dy*dy > 150*150` (both sides are nonnegative, squaring is
  monotone), avoiding real square roots.
-/

/-- Player roles, the strings `'crewmate'` / `'imposter'` in the source. -/
inductive Role where
  | crewmate : Role
  | imposter : Role
deriving DecidableEq, Repr

/-- Game phases, the `PHASE` constant of server.js (lines 109-114). -/
inductive Phase where
  | lobby : Phase
  | tasks : Phase
  | meeting : Phase
  | gameOver : Phase
deriving DecidableEq, Repr

/-- A vote choice: a target player id or the string `'skip'`.
`null` votes are modelled by wrapping in `Option` at use sites. -/
inductive VoteChoice where
  | target : Nat → VoteChoice
  | skip : VoteChoice
deriving DecidableEq, Repr

/-- A player record, as built by the `joinRoom` handler (server.js 298-310).
Coordinates are rationals; `votedFor` is `null`able. -/
structure Player where
  id : Nat
  socketId : Nat
  name : String
  color : String
  role : Role
  isAlive : Bool
  x : ℚ
  y : ℚ
  completedTasks : Nat
  votedFor : Option VoteChoice
deriving DecidableEq, Repr

/-- A task template from a map's pool (server.js 84-90). -/
structure TaskTemplate where
  id : String
  name : String
  x : ℚ
  y : ℚ
  ttype : String
deriving DecidableEq, Repr

/-- A task instance: a template clone with `assignedTo` and `completed`
added (server.js 202-205). -/
structure GTask where
  id : String
  name : String
  x : ℚ
  y : ℚ
  ttype : String
  assignedTo : Nat
  completed : Bool
deriving DecidableEq, Repr

/-- Room settings after defaulting (server.js 157-165). -/
structure Settings where
  maxPlayers : Nat
  killCooldown : ℚ
  taskBar : String
  emergencyCooldown : ℚ
  discussionTime : ℚ
  votingTime : ℚ
deriving DecidableEq, Repr

/-- The per-room game state (server.js 144-156 plus the
`imposterKillCooldowns` table added by `resetGame`). -/
structure GameState where
  phase : Phase
  imposters : List Nat
  crewmates : List Nat
  tasks : List GTask
  meetingActive : Bool
  votes : List (Nat × Option VoteChoice)
  bodyReported : Bool
  emergencyCalled : Bool
  taskProgress : Nat
  totalTasks : Nat
  mapId : String
  imposterKillCooldowns : List (Nat × ℚ)
deriving DecidableEq, Repr

/-- A room (server.js 140-166).  `players` is the JS `Map` in insertion
order; the map invariant (player ids pairwise distinct, guaranteed by
`uuidv4`) is carried as a hypothesis where a proof needs it. -/
structure Room where
  code : List Char
  host : Nat
  players : List Player
  settings : Settings
  gameState : GameState
deriving DecidableEq, Repr

/-! ### The Skeld map configuration (server.js 34-98) -/

/-- Map width in pixels (`MAP_WIDTH`, server.js 31). -/
def mapWidth : ℚ := 1600

/-- Map height in pixels (`MAP_HEIGHT`, server.js 32). -/
def mapHeight : ℚ := 1200

/-- The Skeld spawn points (server.js 39-45). -/
def skeldSpawnPoints : List (ℚ × ℚ) :=
  [(800, 600), (400, 300), (1200, 300), (400, 900), (1200, 900)]

/-- The Skeld task template pool (server.js 84-90). -/
def skeldTasks : List TaskTemplate :=
  [⟨"fix_wires", "Fix Wires", 300, 200, "short"⟩,
   ⟨"fuel_engine", "Fuel Engine", 1000, 800, "long"⟩,
   ⟨"clean_filter", "Clean Filter", 600, 400, "medium"⟩,
   ⟨"align_output", "Align Output", 1300, 200, "short"⟩,
   ⟨"divert_power", "Divert Power", 500, 1000, "medium"⟩]

/-- Fallback template (never reached: template indices are always in
range, being `Math.floor(Math.random() * pool.length)`). -/
def defaultTemplate : TaskTemplate := ⟨"", "", 0, 0, ""⟩

/-! ### Association-list operations mirroring JS `Map` / object semantics -/

/-- `room.players.get(pid)`: first (unique) player with this id. -/
def findPlayer (ps : List Player) (pid : Nat) : Option Player :=
  ps.find? (fun p => decide (p.id = pid))

/-- Mutating a player object found in the map: replace the binding with
this id.  (In JS the object is shared, so mutating it updates the map.) -/
def setPlayer (ps : List Player) (p : Player) : List Player :=
  ps.map (fun q => if q.id = p.id then p else q)

/-- JS `Map.delete(pid)` on the players map. -/
def removePlayer (ps : List Player) (pid : Nat) : List Player :=
  ps.filter (fun p => decide (¬ p.id = pid))

/-- Lookup in an association list (JS object property read /
`Map.get`). -/
def alistGet {β : Type} (m : List (Nat × β)) (k : Nat) : Option β :=
  (m.find? (fun kv => decide (kv.1 = k))).map (·.2)

/-- Write in an association list (JS object property write /
`Map.set`): replace in place if present, else append. -/
def alistSet {β : Type} (m : List (Nat × β)) (k : Nat) (v : β) : List (Nat × β) :=
  if m.any (fun kv => decide (kv.1 = k)) then
    m.map (fun kv => if kv.1 = k then (k, v) else kv)
  else
    m ++ [(k, v)]

/-! ### Role assignment (server.js 121-136) -/

/-- Impostor count by roster-size tier:
`numPlayers <= 5 ? 1 : numPlayers <= 8 ? 2 : 3` (server.js 122). -/
def numImposters (numPlayers : Nat) : Nat :=
  if numPlayers ≤ 5 then 1 else if numPlayers ≤ 8 then 2 else 3

/-- `Array(numPlayers).fill('crewmate')` followed by the loop writing
`'imposter'` at indices `0 .. numImposters-1` (server.js 123-127). -/
def baseRoles (numPlayers : Nat) : List Role :=
  (List.range (numImposters numPlayers)).foldl
    (fun rs i => rs.set i Role.imposter)
    (List.replicate numPlayers Role.crewmate)

/-- `[roles[i], roles[j]] = [roles[j], roles[i]]`: swap of two positions of
an array.  Both indices are in range at every call site
(`j = Math.floor(Math.random() * (i+1)) ≤ i < length`). -/
def listSwap {α : Type} (l : List α) (i j : Nat) : List α :=
  match l.get? i, l.get? j with
  | some a, some b => (l.set i b).set j a
  | _, _ => l

/-- The Fisher-Yates loop `for (let i = length-1; i > 0; i--)` of
server.js 130-133, with the random draw `j = floor(rand * (i+1))`
supplied by `js`.  `fyGo js l i` runs the iterations `i, i-1, ..., 1`. -/
def fyGo {α : Type} (js : Nat → Nat) : List α → Nat → List α
  | l, 0 => l
  | l, i + 1 => fyGo js (listSwap l (i + 1) (js (i + 1))) i

/-- `assignRoles` (server.js 121-136): tiered base array, then a
Fisher-Yates shuffle driven by the draws `js`. -/
def assignRoles (numPlayers : Nat) (js : Nat → Nat) : List Role :=
  fyGo js (baseRoles numPlayers) (numPlayers - 1)

/-! ### `resetGame` (server.js 172-229) -/

/-- The per-player setup in the `forEach` of server.js 187-193:
role from the shuffled array, alive, spawn position by
`index % spawnPoints.length`, counters and vote cleared. -/
def setupPlayer (p : Player) (r : Role) (index : Nat) : Player :=
  { p with
    role := r
    isAlive := true
    x := (skeldSpawnPoints.getD (index % skeldSpawnPoints.length) (0, 0)).1
    y := (skeldSpawnPoints.getD (index % skeldSpawnPoints.length) (0, 0)).2
    completedTasks := 0
    votedFor := none }

/-- Zip the shuffled role array onto the roster in insertion order
(`playerArray.forEach((player, index) => { player.role = roles[index]; ... })`).
The two lists always have equal length at the call site (`roles` is built
from `room.players.size`), so the padding arm is never reached. -/
def assignAll : List Player → List Role → Nat → List Player
  | [], _, _ => []
  | p :: ps, [], index => setupPlayer p Role.crewmate index :: assignAll ps [] (index + 1)
  | p :: ps, r :: rs, index => setupPlayer p r index :: assignAll ps rs (index + 1)

/-- The inner task loop of server.js 201-206 for one crewmate: `cnt`
clones of templates picked by `pick`, with `assignedTo` the player and a
fresh `completed = false`. -/
def mkTasksFor (pid : Nat) (cnt : Nat) (pick : Nat → Nat) : List GTask :=
  (List.range cnt).map (fun k =>
    let tpl := skeldTasks.getD (pick k) defaultTemplate
    { id := tpl.id, name := tpl.name, x := tpl.x, y := tpl.y, ttype := tpl.ttype
      assignedTo := pid, completed := false })

/-- Number of tasks for a crewmate:
`3 + Math.floor(Math.random() * 3)` (server.js 200), with the draw
`r ∈ [0,1)` supplied. -/
def numTasksOf (r : ℚ) : Nat := 3 + (⌊r * 3⌋).toNat

/-- The task-generation part of the `forEach` (server.js 195-207):
impostors get no tasks, each crewmate at roster index `i` gets
`numTasksOf (rand i)` tasks picked by `pick i`. -/
def genTasks : List Player → (Nat → ℚ) → (Nat → Nat → Nat) → Nat → List GTask
  | [], _, _, _ => []
  | p :: ps, rand, pick, index =>
    (if p.role = Role.imposter then []
     else mkTasksFor p.id (numTasksOf (rand index)) (pick index))
      ++ genTasks ps rand pick (index + 1)

/-- `room.gameState.imposters` as pushed in roster order (server.js 196). -/
def imposterIds (ps : List Player) : List Nat :=
  (ps.filter (fun p => decide (p.role = Role.imposter))).map (·.id)

/-- `room.gameState.crewmates` as pushed in roster order (server.js 198). -/
def crewmateIds (ps : List Player) : List Nat :=
  (ps.filter (fun p => decide (¬ p.role = Role.imposter))).map (·.id)

/-- The `totalTasks` computation of server.js 211-214:
`tasks.filter(t => { const player = room.players.get(t.assignedTo);
return player && player.role !== 'imposter'; }).length`. -/
def totalCrewTasks (ps : List Player) (ts : List GTask) : Nat :=
  (ts.filter (fun t =>
    match findPlayer ps t.assignedTo with
    | some p => decide (¬ p.role = Role.imposter)
    | none => false)).length

/-- `resetGame` (server.js 172-229), parametrized by the random draws:
`js` drives the role shuffle, `rand i ∈ [0,1)` the task count of roster
index `i`, `pick i k` the template index of that player's `k`-th task.
Note the source does *not* reset `taskProgress`. -/
def resetGame (room : Room) (js : Nat → Nat) (rand : Nat → ℚ)
    (pick : Nat → Nat → Nat) : Room :=
  let roles := assignRoles room.players.length js
  let players' := assignAll room.players roles 0
  let tasks := genTasks players' rand pick 0
  let imps := imposterIds players'
  { room with
    players := players'
    gameState := { room.gameState with
      phase := Phase.tasks
      imposters := imps
      crewmates := crewmateIds players'
      tasks := tasks
      meetingActive := false
      votes := []
      bodyReported := false
      emergencyCalled := false
      totalTasks := totalCrewTasks players' tasks
      imposterKillCooldowns := imps.map (fun i => (i, 0)) } }

/-! ### `playerMove` (server.js 454-473) -/

/-- The `playerMove` handler: ignored unless the player exists, is alive
and the phase is Tasks; otherwise the position is clamped into the map
bounds by `Math.max(0, Math.min(width, movement.x))` (and the same for
`y` with the height). -/
def playerMove (room : Room) (pid : Nat) (mx my : ℚ) : Room :=
  match findPlayer room.players pid with
  | none => room
  | some player =>
    if ¬ player.isAlive ∨ ¬ room.gameState.phase = Phase.tasks then room
    else
      let player' := { player with
        x := max 0 (min mapWidth mx)
        y := max 0 (min mapHeight my) }
      { room with players := setPlayer room.players player' }

/-! ### `updatePlayer` (server.js 339-366) -/

/-- A client-supplied partial update object.  `Object.assign` copies every
own property of the payload; the model carries the rule-relevant fields
(the payload may mention any subset of them — `none` means absent). -/
structure PlayerUpdates where
  name : Option String := none
  color : Option String := none
  role : Option Role := none
  isAlive : Option Bool := none
  x : Option ℚ := none
  y : Option ℚ := none
  completedTasks : Option Nat := none
deriving DecidableEq, Repr

/-- `Object.assign(player, updates)` (server.js 358): every property
present in the payload overwrites the player's field. -/
def objectAssign (p : Player) (u : PlayerUpdates) : Player :=
  { p with
    name := u.name.getD p.name
    color := u.color.getD p.color
    role := u.role.getD p.role
    isAlive := u.isAlive.getD p.isAlive
    x := u.x.getD p.x
    y := u.y.getD p.y
    completedTasks := u.completedTasks.getD p.completedTasks }

/-- The `updatePlayer` handler: looks the caller up and applies
`Object.assign(player, updates)`; the second component is the ack
payload's `success` flag (`none` = no callback invoked). -/
def updatePlayer (room : Room) (pid : Nat) (u : PlayerUpdates) :
    Room × Option Bool :=
  match findPlayer room.players pid with
  | none => (room, some false)
  | some player =>
    ({ room with players := setPlayer room.players (objectAssign player u) },
     some true)

/-! ### `completeTask` (server.js 650-687) -/

/-- Mark the first task with this id belonging to this player as
completed — the JS code mutates the object returned by
`tasks.find(t => t.id === taskId && t.assignedTo === player.id)`. -/
def completeFirst : List GTask → String → Nat → List GTask
  | [], _, _ => []
  | t :: ts, tid, pid =>
    if t.id = tid ∧ t.assignedTo = pid then
      { t with completed := true } :: ts
    else
      t :: completeFirst ts tid pid

/-- `taskProgress` recomputation (server.js 664):
`tasks.filter(t => t.completed && t.assignedTo !== 'imposter').length`.
`assignedTo` is always a player uuid, never the string `'imposter'`, so
the second conjunct is vacuously true and the count is just the number
of completed tasks. -/
def countCompleted (ts : List GTask) : Nat :=
  (ts.filter (fun t => t.completed)).length

/-- The `completeTask` handler.  Result component two is the callback
payload's `success` (`none` = the handler returned before invoking the
callback, which happens for a missing, dead or impostor caller;
`callback({success: !!task})` otherwise). -/
def completeTask (room : Room) (pid : Nat) (taskId : String) :
    Room × Option Bool :=
  match findPlayer room.players pid with
  | none => (room, none)
  | some player =>
    if ¬ player.isAlive ∨ player.role = Role.imposter then (room, none)
    else
      match room.gameState.tasks.find?
          (fun t => decide (t.id = taskId ∧ t.assignedTo = player.id)) with
      | none => (room, some false)
      | some task =>
        if task.completed then (room, some true)
        else
          let tasks' := completeFirst room.gameState.tasks taskId player.id
          let player' := { player with completedTasks := player.completedTasks + 1 }
          let progress := countCompleted tasks'
          let phase' :=
            if room.gameState.totalTasks ≤ progress then Phase.gameOver
            else room.gameState.phase
          ({ room with
              players := setPlayer room.players player'
              gameState := { room.gameState with
                tasks := tasks'
                taskProgress := progress
                phase := phase' } },
           some true)

/-! ### `killPlayer` (server.js 690-765) -/

/-- The possible outcomes of `killPlayer`, one per callback message. -/
inductive KillResult where
  | cannotKill : KillResult
  | invalidTarget : KillResult
  | cooldownActive : KillResult
  | targetTooFar : KillResult
  | success : KillResult
deriving DecidableEq, Repr

/-- Alive members of an id roster (server.js 744-752):
`roster.filter(id => { const p = room.players.get(id); return p && p.isAlive; })`. -/
def aliveOf (ps : List Player) (roster : List Nat) : List Nat :=
  roster.filter (fun i =>
    match findPlayer ps i with
    | some p => p.isAlive
    | none => false)

/-- The `killPlayer` handler; `nowSec` is `Date.now() / 1000`.
The distance guard `Math.sqrt(dx*dx+dy*dy) > 150` is expressed as
`dx*dx+dy*dy > 150*150`.  Note the handler has no phase guard. -/
def killPlayer (room : Room) (pid targetId : Nat) (nowSec : ℚ) :
    Room × KillResult :=
  match findPlayer room.players pid with
  | none => (room, KillResult.cannotKill)
  | some player =>
    if ¬ player.role = Role.imposter ∨ ¬ player.isAlive then
      (room, KillResult.cannotKill)
    else
      match findPlayer room.players targetId with
      | none => (room, KillResult.invalidTarget)
      | some target =>
        if ¬ target.isAlive ∨ target.role = Role.imposter then
          (room, KillResult.invalidTarget)
        else
          let cooldown := (alistGet room.gameState.imposterKillCooldowns player.id).getD 0
          if nowSec - cooldown < room.settings.killCooldown then
            (room, KillResult.cooldownActive)
          else
            let dx := player.x - target.x
            let dy := player.y - target.y
            if dx * dx + dy * dy > 150 * 150 then
              (room, KillResult.targetTooFar)
            else
              let players' := setPlayer room.players { target with isAlive := false }
              let cooldowns' := alistSet room.gameState.imposterKillCooldowns player.id nowSec
              let aliveImps := aliveOf players' room.gameState.imposters
              let aliveCrew := aliveOf players' room.gameState.crewmates
              let phase' :=
                if aliveCrew.length ≤ aliveImps.length then Phase.gameOver
                else room.gameState.phase
              ({ room with
                  players := players'
                  gameState := { room.gameState with
                    imposterKillCooldowns := cooldowns'
                    phase := phase' } },
               KillResult.success)

/-! ### `reportBody` (server.js 476-519) -/

/-- The `reportBody` handler.  A meeting starts only when the caller is
alive, no body was reported yet, and a dead non-impostor body lies within
the 60-pixel box around the caller. -/
def reportBody (room : Room) (pid : Nat) : Room × Option Bool :=
  match findPlayer room.players pid with
  | none => (room, some false)
  | some player =>
    if ¬ player.isAlive ∨ room.gameState.bodyReported then (room, some false)
    else
      let deadBodyNearby := room.players.any (fun p =>
        ¬ p.isAlive ∧ ¬ p.role = Role.imposter ∧
        |p.x - player.x| < 60 ∧ |p.y - player.y| < 60)
      if ¬ deadBodyNearby then (room, some false)
      else
        ({ room with
            players := room.players.map (fun p => { p with votedFor := none })
            gameState := { room.gameState with
              bodyReported := true
              meetingActive := true
              phase := Phase.meeting
              votes := [] } },
         some true)

/-! ### `emergencyMeeting` (server.js 525-567) -/

/-- The `emergencyMeeting` handler; `nowMs` is `Date.now()` and
`lastEmergencyMs` the caller's entry in the per-socket rate-limit map
(`0` when absent).  `EMERGENCY_COOLDOWN = 10000`. -/
def emergencyMeeting (room : Room) (pid : Nat) (nowMs lastEmergencyMs : ℚ) :
    Room × Option Bool :=
  if nowMs - lastEmergencyMs < 10000 then (room, some false)
  else
    match findPlayer room.players pid with
    | none => (room, some false)
    | some player =>
      if ¬ player.isAlive ∨ room.gameState.emergencyCalled then (room, some false)
      else
        ({ room with
            players := room.players.map (fun p => { p with votedFor := none })
            gameState := { room.gameState with
              emergencyCalled := true
              meetingActive := true
              phase := Phase.meeting
              votes := [] } },
         some true)

/-! ### `endMeeting` (server.js 793-821) -/

/-- The `endMeeting` handler.  It unconditionally clears the meeting
flags and all votes, sets the phase to Tasks and respawns every alive
player (spawn-point index draw `spIdx p.id`, jitter draws
`jx p.id, jy p.id ∈ [0,1)` for `(Math.random() - 0.5) * 100`).  It reads
neither the recorded votes nor the client-supplied `results` payload for
any state change, performs no ejection, and has no phase guard. -/
def endMeeting (room : Room) (spIdx : Nat → Nat) (jx jy : Nat → ℚ) : Room :=
  let players' := room.players.map (fun p =>
    let p := { p with votedFor := none }
    if p.isAlive then
      let sp := skeldSpawnPoints.getD (spIdx p.id) (0, 0)
      { p with
        x := sp.1 + (jx p.id - 1/2) * 100
        y := sp.2 + (jy p.id - 1/2) * 100 }
    else p)
  { room with
    players := players'
    gameState := { room.gameState with
      meetingActive := false
      phase := Phase.tasks
      bodyReported := false
      emergencyCalled := false
      votes := [] } }

/-! ### `generateRoomCode` / `createRoom` (server.js 117-170) and the
room registry -/

/-- `generateRoomCode` (server.js 117-119):
`Math.random().toString(36).substring(2, 8).toUpperCase()`.
The parameter is the base-36 string JS produces for the draw (e.g.
`"0.8f3k2x9q..."`; for the representable draw `0` it is `"0"`), as a
character list; `substring(2, 8)` keeps at most six characters and
returns fewer when the string is shorter. -/
def generateRoomCode (randStr : List Char) : List Char :=
  ((randStr.drop 2).take 6).map Char.toUpper

/-- The global `rooms` map (room code → room) and the `playerSockets`
map (socket id → room code × player id). -/
structure Registry where
  rooms : List (List Char × Room)
  playerSockets : List (Nat × (List Char × Nat))
deriving DecidableEq, Repr

/-- `rooms.get(code)`. -/
def regGet (rs : List (List Char × Room)) (code : List Char) : Option Room :=
  (rs.find? (fun kv => decide (kv.1 = code))).map (·.2)

/-- `rooms.set(code, room)`: JS `Map.set` replaces an existing binding in
place, otherwise appends.  In particular a colliding code silently
overwrites the room already stored under it. -/
def regSet (rs : List (List Char × Room)) (code : List Char) (room : Room) :
    List (List Char × Room) :=
  if rs.any (fun kv => decide (kv.1 = code)) then
    rs.map (fun kv => if kv.1 = code then (code, room) else kv)
  else
    rs ++ [(code, room)]

/-- `rooms.delete(code)`. -/
def regDelete (rs : List (List Char × Room)) (code : List Char) :
    List (List Char × Room) :=
  rs.filter (fun kv => decide (¬ kv.1 = code))

/-- Client-supplied settings before defaulting.  JS applies defaults with
`||`, which also replaces an explicit `0` (falsy) by the default. -/
structure SettingsInput where
  maxPlayers : Option Nat := none
  killCooldown : Option ℚ := none
  taskBar : Option String := none
  emergencyCooldown : Option ℚ := none
  discussionTime : Option ℚ := none
  votingTime : Option ℚ := none
  mapId : Option String := none
deriving DecidableEq, Repr

/-- `value || default` for a numeric setting (`0` is falsy). -/
def orDefaultNat (o : Option Nat) (d : Nat) : Nat :=
  match o with
  | some v => if v = 0 then d else v
  | none => d

/-- `value || default` for a rational setting (`0` is falsy). -/
def orDefaultQ (o : Option ℚ) (d : ℚ) : ℚ :=
  match o with
  | some v => if v = 0 then d else v
  | none => d

/-- `value || default` for a string setting (`''` is falsy). -/
def orDefaultStr (o : Option String) (d : String) : String :=
  match o with
  | some v => if v = "" then d else v
  | none => d

/-- `createRoom` (server.js 138-170): build the room around the freshly
generated code and `rooms.set` it.  There is no collision check, no
retry loop and no failure path. -/
def createRoom (rs : List (List Char × Room)) (hostSocketId : Nat)
    (settings : SettingsInput) (randStr : List Char) :
    List (List Char × Room) × Room :=
  let roomCode := generateRoomCode randStr
  let room : Room :=
    { code := roomCode
      host := hostSocketId
      players := []
      settings :=
        { maxPlayers := orDefaultNat settings.maxPlayers 20
          killCooldown := orDefaultQ settings.killCooldown 30
          taskBar := orDefaultStr settings.taskBar "always"
          emergencyCooldown := orDefaultQ settings.emergencyCooldown 15
          discussionTime := orDefaultQ settings.discussionTime 30
          votingTime := orDefaultQ settings.votingTime 30 }
      gameState :=
        { phase := Phase.lobby
          imposters := []
          crewmates := []
          tasks := []
          meetingActive := false
          votes := []
          bodyReported := false
          emergencyCalled := false
          taskProgress := 0
          totalTasks := 0
          mapId := orDefaultStr settings.mapId "skeld"
          imposterKillCooldowns := [] } }
  (regSet rs roomCode room, room)

/-! ### `handleDisconnect` (server.js 834-890) -/

/-- The `handleDisconnect` routine.  The room object is shared, so when it
is *not* dissolved every later mutation (host reassignment, roster
filtering, win-condition phase change) is visible through the registry;
when it is dissolved (`rooms.delete`) the later mutations act on the
detached object only.  The room is dissolved exactly when the departing
socket is the room's host and the roster is empty after the removal. -/
def handleDisconnect (reg : Registry) (socketId : Nat) : Registry :=
  match alistGet reg.playerSockets socketId with
  | none => reg
  | some rp =>
    match regGet reg.rooms rp.1 with
    | none => reg
    | some room =>
      let player? := findPlayer room.players rp.2
      let players₁ := removePlayer room.players rp.2
      let psock' := reg.playerSockets.filter (fun kv => decide (¬ kv.1 = socketId))
      let hostStep :=
        if room.host = socketId then
          match players₁ with
          | [] => ({ room with players := players₁ }, true)
          | p :: _ => ({ room with players := players₁, host := p.socketId }, false)
        else ({ room with players := players₁ }, false)
      let room₁ := hostStep.1
      let room₂ :=
        match player? with
        | some player =>
          if ¬ room.gameState.phase = Phase.lobby ∧ player.isAlive then
            let imps' :=
              if player.role = Role.imposter then
                room₁.gameState.imposters.filter (fun i => decide (¬ i = rp.2))
              else room₁.gameState.imposters
            let crews' :=
              if player.role = Role.imposter then room₁.gameState.crewmates
              else room₁.gameState.crewmates.filter (fun i => decide (¬ i = rp.2))
            let aliveImps := (aliveOf players₁ imps').length
            let aliveCrew := (aliveOf players₁ crews').length
            let phase' :=
              if aliveImps = 0 then Phase.gameOver
              else if aliveCrew ≤ aliveImps then Phase.gameOver
              else room₁.gameState.phase
            { room₁ with gameState := { room₁.gameState with
                imposters := imps'
                crewmates := crews'
                phase := phase' } }
          else room₁
        | none => room₁
      { rooms :=
          if hostStep.2 then regDelete reg.rooms rp.1
          else regSet reg.rooms rp.1 room₂
        playerSockets := psock' }

/-! ### Iterated `completeTask` calls -/

/-- A sequence of `completeTask` events (caller id, task id), processed in
arrival order — the server handles each event to completion before the
next one. -/
def runTasks (room : Room) : List (Nat × String) → Room
  | [] => room
  | c :: rest => runTasks (completeTask room c.1 c.2).1 rest

/-! ### Concrete sample states used by witnesses and counterexamples -/

/-- A player record with the given id, socket, role, liveness and
position; display fields fixed. -/
def mkPlayer (pid sid : Nat) (r : Role) (alive : Bool) (px py : ℚ) : Player :=
  { id := pid, socketId := sid, name := "p", color := "#FF0000", role := r
    isAlive := alive, x := px, y := py, completedTasks := 0, votedFor := none }

/-- The default settings produced by `createRoom` with an empty payload. -/
def baseSettings : Settings :=
  { maxPlayers := 20, killCooldown := 30, taskBar := "always"
    emergencyCooldown := 15, discussionTime := 30, votingTime := 30 }

/-- A game state with the given phase, rosters and tasks, all flags
clear. -/
def mkGameState (ph : Phase) (imps crews : List Nat) (ts : List GTask)
    (total : Nat) : GameState :=
  { phase := ph, imposters := imps, crewmates := crews, tasks := ts
    meetingActive := false, votes := [], bodyReported := false
    emergencyCalled := false, taskProgress := 0, totalTasks := total
    mapId := "skeld", imposterKillCooldowns := [] }

/-- A room in the Tasks phase with a single alive crewmate (id 1). -/
def roomMove : Room :=
  { code := ['A', 'B', 'C', 'D', 'E', 'F'], host := 11
    players := [mkPlayer 1 11 Role.crewmate true 800 600]
    settings := baseSettings
    gameState := mkGameState Phase.tasks [] [1] [] 0 }

/-- A finished room: phase GameOver, one alive impostor and one dead
crewmate, with recorded meeting votes 4 : 2 for player 1 over player 2. -/
def roomOver : Room :=
  { code := ['A', 'B', 'C', 'D', 'E', 'F'], host := 11
    players := [mkPlayer 1 11 Role.imposter true 800 600,
                mkPlayer 2 12 Role.crewmate false 400 300]
    settings := baseSettings
    gameState := { mkGameState Phase.gameOver [1] [2] [] 0 with
      votes := [(1, some (VoteChoice.target 2)), (2, some (VoteChoice.target 1))] } }

/-- A Meeting-phase room: alive impostor (id 1) and alive crewmate (id 2)
within kill range, with the impostor's cooldown long expired. -/
def roomKill : Room :=
  { code := ['A', 'B', 'C', 'D', 'E', 'F'], host := 11
    players := [mkPlayer 1 11 Role.imposter true 100 100,
                mkPlayer 2 12 Role.crewmate true 150 100]
    settings := baseSettings
    gameState := { mkGameState Phase.meeting [1] [2] [] 0 with
      meetingActive := true
      imposterKillCooldowns := [(1, 0)] } }

/-- A task instance on the Skeld `fix_wires` template. -/
def wireTask (pid : Nat) (done : Bool) : GTask :=
  { id := "fix_wires", name := "Fix Wires", x := 300, y := 200
    ttype := "short", assignedTo := pid, completed := done }

/-- A Tasks-phase room whose single crewmate (id 1) has one already
completed task. -/
def roomTaskDone : Room :=
  { code := ['A', 'B', 'C', 'D', 'E', 'F'], host := 11
    players := [mkPlayer 1 11 Role.crewmate true 800 600]
    settings := baseSettings
    gameState := mkGameState Phase.tasks [] [1] [wireTask 1 true] 1 }

/-- A Tasks-phase room whose single crewmate (id 1) has one uncompleted
task. -/
def roomTaskOpen : Room :=
  { code := ['A', 'B', 'C', 'D', 'E', 'F'], host := 11
    players := [mkPlayer 1 11 Role.crewmate true 800 600]
    settings := baseSettings
    gameState := mkGameState Phase.tasks [] [1] [wireTask 1 false] 1 }

/-- A Tasks-phase room whose crewmate (id 1) owns two clones of the same
template, the earlier one completed. -/
def roomDupDone : Room :=
  { code := ['A', 'B', 'C', 'D', 'E', 'F'], host := 11
    players := [mkPlayer 1 11 Role.crewmate true 800 600]
    settings := baseSettings
    gameState := mkGameState Phase.tasks [] [1] [wireTask 1 true, wireTask 1 false] 2 }

/-- A Tasks-phase room whose crewmate (id 1) owns two clones of the same
template, both uncompleted. -/
def roomDupOpen : Room :=
  { code := ['A', 'B', 'C', 'D', 'E', 'F'], host := 11
    players := [mkPlayer 1 11 Role.crewmate true 800 600]
    settings := baseSettings
    gameState := mkGameState Phase.tasks [] [1] [wireTask 1 false, wireTask 1 false] 2 }

/-- A four-player lobby (ids 1-4, sockets 11-14), ready for `startGame`. -/
def roomFour : Room :=
  { code := ['A', 'B', 'C', 'D', 'E', 'F'], host := 11
    players := [mkPlayer 1 11 Role.crewmate true 800 600,
                mkPlayer 2 12 Role.crewmate true 800 600,
                mkPlayer 3 13 Role.crewmate true 800 600,
                mkPlayer 4 14 Role.crewmate true 800 600]
    settings := baseSettings
    gameState := mkGameState Phase.lobby [] [] [] 0 }

/-- A registry holding one room whose host connection (socket 11) is not
among the players; the only player (id 2) is on socket 22. -/
def regLeak : Registry :=
  { rooms := [(['A', 'B', 'C', 'D', 'E', 'F'],
      { code := ['A', 'B', 'C', 'D', 'E', 'F'], host := 11
        players := [mkPlayer 2 22 Role.crewmate true 800 600]
        settings := baseSettings
        gameState := mkGameState Phase.lobby [] [] [] 0 })]
    playerSockets := [(22, (['A', 'B', 'C', 'D', 'E', 'F'], 2))] }

/-- A room whose host connection (socket 22) is the socket of its only
player (id 2). -/
def roomHostOnly : Room :=
  { code := ['A', 'B', 'C', 'D', 'E', 'F'], host := 22
    players := [mkPlayer 2 22 Role.crewmate true 800 600]
    settings := baseSettings
    gameState := mkGameState Phase.lobby [] [] [] 0 }

/-- A registry holding only `roomHostOnly`. -/
def regHost : Registry :=
  { rooms := [(['A', 'B', 'C', 'D', 'E', 'F'], roomHostOnly)]
    playerSockets := [(22, (['A', 'B', 'C', 'D', 'E', 'F'], 2))] }

instance : Inhabited Player := ⟨mkPlayer 0 0 Role.crewmate true 0 0⟩

instance : Inhabited Room := ⟨roomMove⟩

/-! ### Helper lemmas about the map operations -/

lemma findPlayer_id (ps : List Player) (k : Nat) (p : Player)
    (h : findPlayer ps k = some p) : p.id = k := by
  have := List.find?_some h
  simpa using this

lemma findPlayer_setPlayer (ps : List Player) (q : Player) (k : Nat)
    (hk : q.id = k) (h : (findPlayer ps k).isSome) :
    findPlayer (setPlayer ps q) k = some q := by
  subst hk
  induction ps with
  | nil => simp [findPlayer] at h
  | cons a t ih =>
    by_cases ha : a.id = q.id
    · simp [findPlayer, setPlayer, List.find?, ha]
    · have h' : (findPlayer t q.id).isSome := by
        simpa [findPlayer, List.find?, ha] using h
      have hrec := ih h'
      simpa [findPlayer, setPlayer, List.find?, ha] using hrec

/-! ### C10 — movement clamping -/

/-- C10: a `move` to `(mx, my)` issued in the Tasks phase by an alive
player stores exactly the componentwise clamp of `(mx, my)` into the map
bounds, which is never outside them; a move by a dead player or outside
the Tasks phase leaves the room (in particular every stored position)
unchanged. -/
theorem playerMove_clamped (room : Room) (pid : Nat) (mx my : ℚ) (p : Player)
    (h : findPlayer room.players pid = some p) :
    (p.isAlive = true → room.gameState.phase = Phase.tasks →
      ∃ p', findPlayer (playerMove room pid mx my).players pid = some p' ∧
        p'.x = max 0 (min mapWidth mx) ∧ p'.y = max 0 (min mapHeight my) ∧
        0 ≤ p'.x ∧ p'.x ≤ mapWidth ∧ 0 ≤ p'.y ∧ p'.y ≤ mapHeight) ∧
    (¬ p.isAlive = true ∨ ¬ room.gameState.phase = Phase.tasks →
      playerMove room pid mx my = room) := by
  have hid : p.id = pid := findPlayer_id _ _ _ h
  constructor
  · intro halive hphase
    refine ⟨{ p with x := max 0 (min mapWidth mx), y := max 0 (min mapHeight my) },
      ?_, rfl, rfl, le_max_left _ _,
      max_le (by norm_num [mapWidth]) (min_le_left _ _),
      le_max_left _ _,
      max_le (by norm_num [mapHeight]) (min_le_left _ _)⟩
    unfold playerMove
    rw [h]
    dsimp only
    rw [if_neg (by simp [halive, hphase])]
    exact findPlayer_setPlayer room.players _ pid hid (by simp [h])
  · intro hbad
    unfold playerMove
    rw [h]
    dsimp only
    rw [if_pos ?_]
    rcases hbad with hb | hb
    · exact Or.inl (by simpa using hb)
    · exact Or.inr hb

/-- C10 witness: in `roomMove` the alive crewmate moves to `(5000, -20)`
and the stored position becomes `(1600, 0)`, inside the bounds. -/
theorem playerMove_clamped_witness :
    ∃ p', findPlayer (playerMove roomMove 1 5000 (-20)).players 1 = some p' ∧
      p'.x = max 0 (min mapWidth 5000) ∧ p'.y = max 0 (min mapHeight (-20)) ∧
      0 ≤ p'.x ∧ p'.x ≤ mapWidth ∧ 0 ≤ p'.y ∧ p'.y ≤ mapHeight :=
  (playerMove_clamped roomMove 1 5000 (-20) (mkPlayer 1 11 Role.crewmate true 800 600)
    (by decide)).1 (by decide) (by decide)

/-! ### C3 — `updatePlayer` applies arbitrary payload fields -/

/-- C3: the claim says `updatePlayer` applies only the `name` and `color`
fields.  In fact `Object.assign(player, updates)` applies every supplied
field: a payload carrying `role` and `isAlive` turns the alive crewmate
of `roomMove` into a dead impostor, and the call acks success. -/
theorem updatePlayer_overwrites_role :
    ((findPlayer (updatePlayer roomMove 1
        { role := some Role.imposter, isAlive := some false }).1.players 1).map
      (fun p => (p.role, p.isAlive)) = some (Role.imposter, false))
    ∧ ((findPlayer roomMove.players 1).map (fun p => (p.role, p.isAlive)) =
        some (Role.crewmate, true))
    ∧ (updatePlayer roomMove 1
        { role := some Role.imposter, isAlive := some false }).2 = some true := by
  decide

/-! ### C1 — `endMeeting` performs no vote tabulation -/

/-- C1: the claim says `endMeeting` tabulates the recorded votes and
ejects the strict plurality target.  In fact, for every room (whatever
votes are recorded, e.g. 4 votes against one player and 2 against
another) and every respawn draw, `endMeeting` leaves every player's id,
role and liveness unchanged, leaves both role rosters unchanged, clears
the votes and meeting flags, and sets the phase to Tasks — no ejection
and no win-condition re-evaluation ever happens. -/
theorem endMeeting_no_tabulation (room : Room) (spIdx : Nat → Nat) (jx jy : Nat → ℚ) :
    ((endMeeting room spIdx jx jy).players.map (fun p => (p.id, p.role, p.isAlive)) =
      room.players.map (fun p => (p.id, p.role, p.isAlive)))
    ∧ (endMeeting room spIdx jx jy).gameState.imposters = room.gameState.imposters
    ∧ (endMeeting room spIdx jx jy).gameState.crewmates = room.gameState.crewmates
    ∧ (endMeeting room spIdx jx jy).gameState.phase = Phase.tasks
    ∧ (endMeeting room spIdx jx jy).gameState.votes = []
    ∧ (endMeeting room spIdx jx jy).gameState.meetingActive = false := by
  refine ⟨?_, rfl, rfl, rfl, rfl, rfl⟩
  unfold endMeeting
  simp only [List.map_map]
  apply List.map_congr_left
  intro p _
  by_cases hp : p.isAlive <;> simp [Function.comp, hp]

/-! ### C2 — GameOver is not terminal -/

/-- C2: the claim says a GameOver phase survives every event except a new
`startGame`.  In fact the `endMeeting` handler has no phase guard: it
unconditionally sets the phase to Tasks, so an `endMeeting` event
arriving while the phase is GameOver moves the finished room back into
the Tasks phase. -/
theorem gameOver_not_terminal (room : Room) (spIdx : Nat → Nat) (jx jy : Nat → ℚ)
    (h : room.gameState.phase = Phase.gameOver) :
    (endMeeting room spIdx jx jy).gameState.phase = Phase.tasks := rfl

/-- C2 witness: `roomOver` is in GameOver phase and a single `endMeeting`
event moves it to Tasks. -/
theorem gameOver_not_terminal_witness :
    roomOver.gameState.phase = Phase.gameOver ∧
    (endMeeting roomOver (fun _ => 0) (fun _ => 0) (fun _ => 0)).gameState.phase =
      Phase.tasks :=
  ⟨by decide, gameOver_not_terminal roomOver (fun _ => 0) (fun _ => 0) (fun _ => 0) (by decide)⟩


/-! ### Registry lemmas -/

lemma find?_map_regSet (rs : List (List Char × Room)) (c : List Char) (room : Room)
    (h : rs.any (fun kv => decide (kv.1 = c)) = true) :
    (rs.map (fun kv => if kv.1 = c then (c, room) else kv)).find?
      (fun kv => decide (kv.1 = c)) = some (c, room) := by
  induction rs with
  | nil => exact Bool.noConfusion h
  | cons kv t ih =>
    by_cases hk : kv.1 = c
    · rw [List.map_cons, if_pos hk]
      exact List.find?_cons_of_pos _ (by simp)
    · have ht : t.any (fun kv => decide (kv.1 = c)) = true := by
        simpa [List.any_cons, hk] using h
      rw [List.map_cons, if_neg hk, List.find?_cons_of_neg _ (by simpa using hk)]
      exact ih ht

lemma regGet_regSet_self (rs : List (List Char × Room)) (c : List Char) (room : Room) :
    regGet (regSet rs c room) c = some room := by
  unfold regSet
  by_cases h : rs.any (fun kv => decide (kv.1 = c)) = true
  · rw [if_pos h]
    unfold regGet
    rw [find?_map_regSet rs c room h]
    rfl
  · rw [if_neg h]
    have hnone : rs.find? (fun kv => decide (kv.1 = c)) = none := by
      rw [List.find?_eq_none]
      intro kv hkv hc
      exact h (List.any_eq_true.2 ⟨kv, hkv, hc⟩)
    have hpos : ([(c, room)].find? (fun kv => decide (kv.1 = c))) = some (c, room) :=
      List.find?_cons_of_pos _ (by simp)
    unfold regGet
    rw [List.find?_append, hnone, Option.none_or, hpos]
    rfl

lemma find?_map_regSet_other (rs : List (List Char × Room)) (c c' : List Char)
    (room : Room) (h : ¬ c' = c) :
    ((rs.map (fun kv => if kv.1 = c then (c, room) else kv)).find?
        (fun kv => decide (kv.1 = c'))).map (·.2) =
      (rs.find? (fun kv => decide (kv.1 = c'))).map (·.2) := by
  induction rs with
  | nil => rfl
  | cons kv t ih =>
    by_cases hk : kv.1 = c
    · have h1 : ¬ ((c, room).1 = c') := fun hcc => h hcc.symm
      have h2 : ¬ (kv.1 = c') := fun hcc => h (hcc.symm.trans hk)
      rw [List.map_cons, if_pos hk,
        List.find?_cons_of_neg _ (by simpa using h1),
        List.find?_cons_of_neg _ (by simpa using h2)]
      exact ih
    · by_cases hk' : kv.1 = c'
      · rw [List.map_cons, if_neg hk,
          List.find?_cons_of_pos _ (by simpa using hk'),
          List.find?_cons_of_pos _ (by simpa using hk')]
      · rw [List.map_cons, if_neg hk,
          List.find?_cons_of_neg _ (by simpa using hk'),
          List.find?_cons_of_neg _ (by simpa using hk')]
        exact ih

lemma regGet_regSet_other (rs : List (List Char × Room)) (c c' : List Char)
    (room : Room) (h : ¬ c' = c) :
    regGet (regSet rs c room) c' = regGet rs c' := by
  unfold regSet
  by_cases hp : rs.any (fun kv => decide (kv.1 = c)) = true
  · rw [if_pos hp]
    exact find?_map_regSet_other rs c c' room h
  · rw [if_neg hp]
    unfold regGet
    rw [List.find?_append]
    have hlast : ([(c, room)].find? (fun kv => decide (kv.1 = c'))) = none := by
      rw [List.find?_eq_none]
      intro kv hkv hc
      rcases List.mem_singleton.1 hkv with rfl
      have hcc : c = c' := by simpa using hc
      exact h hcc.symm
    rw [hlast]
    cases rs.find? (fun kv => decide (kv.1 = c')) <;> rfl

lemma regGet_regDelete_self (rs : List (List Char × Room)) (c : List Char) :
    regGet (regDelete rs c) c = none := by
  unfold regGet regDelete
  have h : (rs.filter (fun kv => decide (¬ kv.1 = c))).find?
      (fun kv => decide (kv.1 = c)) = none := by
    rw [List.find?_eq_none]
    intro kv hkv
    have := List.of_mem_filter hkv
    simpa using this
  rw [h]
  rfl

/-! ### C6 — room codes and the collision behaviour of `createRoom` -/

/-- C6: the claim says codes are always six characters and a collision
causes a retry.  In fact `(0).toString(36)` is `"0"` — `0` is a
representable `Math.random()` draw — and its code is the empty string;
and two `createRoom` calls whose draws print the same base-36 string
silently reuse the code: the registry ends with a single binding for it,
holding the second room (host 22), so the first room (host 11) is
clobbered rather than a retry happening. -/
theorem createRoom_collision_counterexample :
    (generateRoomCode ['0']).length = 0 ∧
    ((createRoom ((createRoom [] 11 {} ['0', '.', 'k', '2', 'j', '4', 'x', '9']).1)
        22 {} ['0', '.', 'k', '2', 'j', '4', 'x', '9']).1.length = 1 ∧
     regGet ((createRoom ((createRoom [] 11 {} ['0', '.', 'k', '2', 'j', '4', 'x', '9']).1)
        22 {} ['0', '.', 'k', '2', 'j', '4', 'x', '9']).1)
        (generateRoomCode ['0', '.', 'k', '2', 'j', '4', 'x', '9']) =
       some (createRoom ((createRoom [] 11 {} ['0', '.', 'k', '2', 'j', '4', 'x', '9']).1)
        22 {} ['0', '.', 'k', '2', 'j', '4', 'x', '9']).2 ∧
     (createRoom ((createRoom [] 11 {} ['0', '.', 'k', '2', 'j', '4', 'x', '9']).1)
        22 {} ['0', '.', 'k', '2', 'j', '4', 'x', '9']).2.host = 22) := by
  decide

/-- C6 amended: `createRoom` derives the room code by uppercasing
characters 2..7 of the draw's base-36 string — at most six characters,
fewer when that string is short; it performs no uniqueness check and
never fails: the new room is always stored under its code (overwriting
any existing room with that code), every other binding is untouched, and
the room starts in the Lobby phase. -/
theorem createRoom_spec (rs : List (List Char × Room)) (hostSid : Nat)
    (settings : SettingsInput) (randStr : List Char) :
    (createRoom rs hostSid settings randStr).2.code.length ≤ 6 ∧
    (createRoom rs hostSid settings randStr).2.code = generateRoomCode randStr ∧
    regGet (createRoom rs hostSid settings randStr).1
      (createRoom rs hostSid settings randStr).2.code =
      some (createRoom rs hostSid settings randStr).2 ∧
    (∀ c', ¬ c' = generateRoomCode randStr →
      regGet (createRoom rs hostSid settings randStr).1 c' = regGet rs c') ∧
    (createRoom rs hostSid settings randStr).2.gameState.phase = Phase.lobby := by
  refine ⟨?_, rfl, ?_, ?_, rfl⟩
  · have hlen : (generateRoomCode randStr).length ≤ 6 := by
      unfold generateRoomCode
      rw [List.length_map, List.length_take]
      exact min_le_left _ _
    exact hlen
  · exact regGet_regSet_self rs _ _
  · intro c' hc'
    exact regGet_regSet_other rs _ c' _ hc'

/-- C6 witness: a concrete `createRoom` call whose code is stored and
resolvable while an unrelated code is unaffected. -/
theorem createRoom_spec_witness :
    regGet (createRoom [] 11 {} ['0', '.', 'k', '2', 'j', '4', 'x', '9']).1
      (createRoom [] 11 {} ['0', '.', 'k', '2', 'j', '4', 'x', '9']).2.code =
      some (createRoom [] 11 {} ['0', '.', 'k', '2', 'j', '4', 'x', '9']).2 ∧
    regGet (createRoom [] 11 {} ['0', '.', 'k', '2', 'j', '4', 'x', '9']).1 ['Z'] =
      regGet ([] : List (List Char × Room)) ['Z'] :=
  ⟨(createRoom_spec [] 11 {} ['0', '.', 'k', '2', 'j', '4', 'x', '9']).2.2.1,
   (createRoom_spec [] 11 {} ['0', '.', 'k', '2', 'j', '4', 'x', '9']).2.2.2.1 ['Z'] (by decide)⟩

/-! ### `completeTask` lemmas -/

lemma countCompleted_completeFirst (ts : List GTask) (tid : String) (pid : Nat) (t : GTask)
    (h : ts.find? (fun u => decide (u.id = tid ∧ u.assignedTo = pid)) = some t)
    (hc : t.completed = false) :
    countCompleted (completeFirst ts tid pid) = countCompleted ts + 1 := by
  induction ts with
  | nil => exact Option.noConfusion h
  | cons t0 rest ih =>
    by_cases h0 : t0.id = tid ∧ t0.assignedTo = pid
    · have hfind : ((t0 :: rest).find? (fun u => decide (u.id = tid ∧ u.assignedTo = pid)))
          = some t0 := List.find?_cons_of_pos _ (by simpa using h0)
      have ht : t0 = t := by
        rw [hfind] at h
        exact Option.some.inj h
      subst ht
      simp [completeFirst, h0, countCompleted, List.filter_cons, hc]
    · have hfind : ((t0 :: rest).find? (fun u => decide (u.id = tid ∧ u.assignedTo = pid)))
          = rest.find? (fun u => decide (u.id = tid ∧ u.assignedTo = pid)) :=
        List.find?_cons_of_neg _ (by simpa using h0)
      rw [hfind] at h
      have hrec := ih h
      by_cases hb : t0.completed <;>
        simp [completeFirst, h0, countCompleted, List.filter_cons, hb] at hrec ⊢ <;>
        omega

lemma find?_completeFirst (ts : List GTask) (tid : String) (pid : Nat) (t : GTask)
    (h : ts.find? (fun u => decide (u.id = tid ∧ u.assignedTo = pid)) = some t) :
    (completeFirst ts tid pid).find? (fun u => decide (u.id = tid ∧ u.assignedTo = pid)) =
      some { t with completed := true } := by
  induction ts with
  | nil => exact Option.noConfusion h
  | cons t0 rest ih =>
    by_cases h0 : t0.id = tid ∧ t0.assignedTo = pid
    · have hfind : ((t0 :: rest).find? (fun u => decide (u.id = tid ∧ u.assignedTo = pid)))
          = some t0 := List.find?_cons_of_pos _ (by simpa using h0)
      have ht : t0 = t := by
        rw [hfind] at h
        exact Option.some.inj h
      subst ht
      unfold completeFirst
      rw [if_pos h0]
      exact List.find?_cons_of_pos _ (by simpa using h0)
    · have hfind : ((t0 :: rest).find? (fun u => decide (u.id = tid ∧ u.assignedTo = pid)))
          = rest.find? (fun u => decide (u.id = tid ∧ u.assignedTo = pid)) :=
        List.find?_cons_of_neg _ (by simpa using h0)
      rw [hfind] at h
      unfold completeFirst
      rw [if_neg h0, List.find?_cons_of_neg _ (by simpa using h0)]
      exact ih h

/-! ### C7 — `completeTask` acks and state changes -/

/-- C7: the claim says every rejected `completeTask` acks
`success:false`.  In fact naming an already-completed task of the caller
leaves the room unchanged but acks `success:true`
(`callback({success: !!task})` with the task found). -/
theorem completeTask_done_acks_true :
    completeTask roomTaskDone 1 "fix_wires" = (roomTaskDone, some true) := by
  decide

/-- C7 amended: `completeTask` changes state only when the caller is an
alive crewmate owning the named, not-yet-completed task, in which case
the first such task is marked completed, the player's counter and the
completed count increment, and the phase becomes GameOver exactly when
the completed count reaches `totalTasks`.  Every rejected call leaves the
room unchanged, but the ack is `success:false` only for a missing task;
an already-completed task acks `success:true` and a missing, dead or
impostor caller receives no ack at all. -/
theorem completeTask_spec (room : Room) (pid : Nat) (tid : String) :
    (findPlayer room.players pid = none → completeTask room pid tid = (room, none)) ∧
    (∀ p, findPlayer room.players pid = some p →
      (¬ p.isAlive = true ∨ p.role = Role.imposter →
        completeTask room pid tid = (room, none)) ∧
      (p.isAlive = true → ¬ p.role = Role.imposter →
        (room.gameState.tasks.find?
            (fun u => decide (u.id = tid ∧ u.assignedTo = p.id)) = none →
          completeTask room pid tid = (room, some false)) ∧
        (∀ t, room.gameState.tasks.find?
            (fun u => decide (u.id = tid ∧ u.assignedTo = p.id)) = some t →
          (t.completed = true → completeTask room pid tid = (room, some true)) ∧
          (t.completed = false →
            (completeTask room pid tid).2 = some true ∧
            (completeTask room pid tid).1.gameState.tasks =
              completeFirst room.gameState.tasks tid p.id ∧
            (completeTask room pid tid).1.gameState.tasks.find?
              (fun u => decide (u.id = tid ∧ u.assignedTo = p.id)) =
                some { t with completed := true } ∧
            countCompleted (completeTask room pid tid).1.gameState.tasks =
              countCompleted room.gameState.tasks + 1 ∧
            findPlayer (completeTask room pid tid).1.players pid =
              some { p with completedTasks := p.completedTasks + 1 } ∧
            (completeTask room pid tid).1.gameState.taskProgress =
              countCompleted (completeTask room pid tid).1.gameState.tasks ∧
            (completeTask room pid tid).1.gameState.phase =
              (if room.gameState.totalTasks ≤ countCompleted room.gameState.tasks + 1
                then Phase.gameOver else room.gameState.phase))))) := by
  constructor
  · intro h
    unfold completeTask
    rw [h]
  · intro p hp
    constructor
    · intro hbad
      unfold completeTask
      rw [hp]
      dsimp only
      rw [if_pos hbad]
    · intro halive hrole
      have hcond : ¬ (¬ p.isAlive = true ∨ p.role = Role.imposter) := by
        intro hor
        exact hor.elim (fun hh => hh halive) hrole
      constructor
      · intro hnone
        unfold completeTask
        rw [hp]
        dsimp only
        rw [if_neg hcond, hnone]
      · intro t hfind
        constructor
        · intro hdone
          unfold completeTask
          rw [hp]
          dsimp only
          rw [if_neg hcond, hfind]
          dsimp only
          rw [if_pos hdone]
        · intro hnotdone
          have hstep : completeTask room pid tid =
              ({ room with
                  players := setPlayer room.players
                    { p with completedTasks := p.completedTasks + 1 }
                  gameState := { room.gameState with
                    tasks := completeFirst room.gameState.tasks tid p.id
                    taskProgress :=
                      countCompleted (completeFirst room.gameState.tasks tid p.id)
                    phase :=
                      if room.gameState.totalTasks ≤
                          countCompleted (completeFirst room.gameState.tasks tid p.id)
                        then Phase.gameOver else room.gameState.phase } },
               some true) := by
            unfold completeTask
            rw [hp]
            dsimp only
            rw [if_neg hcond, hfind]
            dsimp only
            rw [if_neg (by simp [hnotdone])]
          have hcount : countCompleted (completeFirst room.gameState.tasks tid p.id) =
              countCompleted room.gameState.tasks + 1 :=
            countCompleted_completeFirst _ _ _ t hfind hnotdone
          rw [hstep]
          refine ⟨rfl, rfl, find?_completeFirst _ _ _ t hfind, hcount, ?_, rfl, ?_⟩
          · exact findPlayer_setPlayer room.players _ pid
              (by simpa using findPlayer_id room.players pid p hp) (by simp [hp])
          · dsimp only
            rw [hcount]

/-- C7 witness: in `roomTaskOpen` the crewmate completes its open task:
the ack is `success:true`, the task flips to completed, the counters
increment and (the single task being the whole round) the phase becomes
GameOver. -/
theorem completeTask_spec_witness :
    (completeTask roomTaskOpen 1 "fix_wires").2 = some true ∧
    (completeTask roomTaskOpen 1 "fix_wires").1.gameState.tasks =
      completeFirst roomTaskOpen.gameState.tasks "fix_wires" 1 ∧
    countCompleted (completeTask roomTaskOpen 1 "fix_wires").1.gameState.tasks =
      countCompleted roomTaskOpen.gameState.tasks + 1 := by
  have h := (((completeTask_spec roomTaskOpen 1 "fix_wires").2
      (mkPlayer 1 11 Role.crewmate true 800 600) (by decide)).2
      (by decide) (by decide)).2 (wireTask 1 false) (by decide)
  have h2 := (h.2 (by decide))
  exact ⟨h2.1, h2.2.1, h2.2.2.2.1⟩

/-! ### Association-list write lemmas -/

lemma find?_map_alistSet {β : Type} (m : List (Nat × β)) (k : Nat) (v : β)
    (h : m.any (fun kv => decide (kv.1 = k)) = true) :
    (m.map (fun kv => if kv.1 = k then (k, v) else kv)).find?
      (fun kv => decide (kv.1 = k)) = some (k, v) := by
  induction m with
  | nil => exact Bool.noConfusion h
  | cons kv t ih =>
    by_cases hk : kv.1 = k
    · rw [List.map_cons, if_pos hk]
      exact List.find?_cons_of_pos _ (by simp)
    · have ht : t.any (fun kv => decide (kv.1 = k)) = true := by
        simpa [List.any_cons, hk] using h
      rw [List.map_cons, if_neg hk, List.find?_cons_of_neg _ (by simpa using hk)]
      exact ih ht

lemma alistGet_alistSet_self {β : Type} (m : List (Nat × β)) (k : Nat) (v : β) :
    alistGet (alistSet m k v) k = some v := by
  unfold alistSet
  by_cases h : m.any (fun kv => decide (kv.1 = k)) = true
  · rw [if_pos h]
    unfold alistGet
    rw [find?_map_alistSet m k v h]
    rfl
  · rw [if_neg h]
    have hnone : m.find? (fun kv => decide (kv.1 = k)) = none := by
      rw [List.find?_eq_none]
      intro kv hkv hc
      exact h (List.any_eq_true.2 ⟨kv, hkv, hc⟩)
    have hpos : ([(k, v)].find? (fun kv => decide (kv.1 = k))) = some (k, v) :=
      List.find?_cons_of_pos _ (by simp)
    unfold alistGet
    rw [List.find?_append, hnone, Option.none_or, hpos]
    rfl

/-! ### C8 — room teardown on the last player leaving -/

/-- C8: the claim says emptying a room's roster always destroys the room.
In fact `handleDisconnect` only dissolves a room when the *host's* socket
leaves; in `regLeak` the only player (socket 22) is not the host
(socket 11), and after it disconnects the room is still registered, with
an empty roster. -/
theorem emptyRoom_survives_counterexample :
    ((regGet (handleDisconnect regLeak 22).rooms
        ['A', 'B', 'C', 'D', 'E', 'F']).map (·.players) = some []) ∧
    (handleDisconnect regLeak 22).rooms.length = 1 := by
  decide

/-- C8 amended: after a disconnect the room is destroyed exactly when the
departing socket is the room's host and the roster is empty after the
removal; a non-host departure (even one that empties the roster) leaves
the room registered with the reduced roster, and a host departure with
players remaining reassigns the host to the first remaining player. -/
theorem handleDisconnect_spec (reg : Registry) (sid : Nat) (code : List Char)
    (pid : Nat) (room : Room)
    (hps : alistGet reg.playerSockets sid = some (code, pid))
    (hroom : regGet reg.rooms code = some room) :
    ((room.host = sid ∧ removePlayer room.players pid = []) →
      regGet (handleDisconnect reg sid).rooms code = none) ∧
    (¬ room.host = sid →
      ∃ room', regGet (handleDisconnect reg sid).rooms code = some room' ∧
        room'.players = removePlayer room.players pid) ∧
    (∀ q qs, room.host = sid → removePlayer room.players pid = q :: qs →
      ∃ room', regGet (handleDisconnect reg sid).rooms code = some room' ∧
        room'.players = removePlayer room.players pid ∧
        room'.host = q.socketId) := by
  refine ⟨?_, ?_, ?_⟩
  · rintro ⟨hhost, hempty⟩
    unfold handleDisconnect
    rw [hps]
    dsimp only
    rw [hroom]
    dsimp only
    rw [hempty, if_pos hhost]
    dsimp only
    exact regGet_regDelete_self reg.rooms code
  · intro hnothost
    unfold handleDisconnect
    rw [hps]
    dsimp only
    rw [hroom]
    dsimp only
    rw [if_neg hnothost]
    dsimp only
    refine ⟨_, regGet_regSet_self _ _ _, ?_⟩
    split
    · rename_i p' hp'
      split
      · rfl
      · rfl
    · rfl
  · intro q qs hhost hq
    unfold handleDisconnect
    rw [hps]
    dsimp only
    rw [hroom]
    dsimp only
    rw [hq, if_pos hhost]
    dsimp only
    refine ⟨_, regGet_regSet_self _ _ _, ?_, ?_⟩
    · split
      · rename_i p' hp'
        split
        · rfl
        · rfl
      · rfl
    · split
      · rename_i p' hp'
        split
        · rfl
        · rfl
      · rfl

/-- C8 witness: in `regHost` the host socket (22) is the last player;
its disconnect dissolves the room. -/
theorem handleDisconnect_spec_witness :
    regGet (handleDisconnect regHost 22).rooms ['A', 'B', 'C', 'D', 'E', 'F'] = none :=
  (handleDisconnect_spec regHost 22 ['A', 'B', 'C', 'D', 'E', 'F'] 2 roomHostOnly
    (by decide) (by decide)).1 ⟨by decide, by decide⟩

/-! ### C5 — `killPlayer` validation and effects -/

lemma killPlayer_success_eq (room : Room) (pid targetId : Nat) (nowSec : ℚ)
    (p t : Player)
    (hp : findPlayer room.players pid = some p)
    (himp : p.role = Role.imposter) (halive : p.isAlive = true)
    (ht : findPlayer room.players targetId = some t)
    (htAlive : t.isAlive = true) (htRole : ¬ t.role = Role.imposter)
    (hcd : ¬ (nowSec - (alistGet room.gameState.imposterKillCooldowns p.id).getD 0 <
        room.settings.killCooldown))
    (hnear : ¬ ((p.x - t.x) * (p.x - t.x) + (p.y - t.y) * (p.y - t.y) > 150 * 150)) :
    killPlayer room pid targetId nowSec =
      ({ room with
          players := setPlayer room.players { t with isAlive := false }
          gameState := { room.gameState with
            imposterKillCooldowns :=
              alistSet room.gameState.imposterKillCooldowns p.id nowSec
            phase :=
              if List.length (aliveOf (setPlayer room.players { t with isAlive := false })
                    room.gameState.crewmates) ≤
                  List.length (aliveOf (setPlayer room.players { t with isAlive := false })
                    room.gameState.imposters)
                then Phase.gameOver else room.gameState.phase } },
       KillResult.success) := by
  have hcond : ¬ (¬ p.role = Role.imposter ∨ ¬ p.isAlive = true) := by
    intro hor
    exact hor.elim (fun hh => hh himp) (fun hh => hh halive)
  have hcondT : ¬ (¬ t.isAlive = true ∨ t.role = Role.imposter) := by
    intro hor
    exact hor.elim (fun hh => hh htAlive) htRole
  unfold killPlayer
  rw [hp]
  dsimp only
  rw [if_neg hcond, ht]
  dsimp only
  rw [if_neg hcondT, if_neg hcd, if_neg hnear]

/-- C5: the claim says `killPlayer` is also rejected when the phase is
not Tasks.  In fact the handler has no phase guard: in `roomKill` the
phase is Meeting and the kill nevertheless succeeds, leaving the
crewmate dead. -/
theorem killPlayer_ignores_phase :
    roomKill.gameState.phase = Phase.meeting ∧
    (killPlayer roomKill 1 2 1000).2 = KillResult.success ∧
    ((findPlayer (killPlayer roomKill 1 2 1000).1.players 2).map (·.isAlive) =
      some false) := by
  have hcd : ¬ ((1000 : ℚ) -
      (alistGet roomKill.gameState.imposterKillCooldowns
        (mkPlayer 1 11 Role.imposter true 100 100).id).getD 0 <
      roomKill.settings.killCooldown) := by
    show ¬ ((1000 : ℚ) - (some (0 : ℚ)).getD 0 < 30)
    norm_num
  have hnear : ¬ (((mkPlayer 1 11 Role.imposter true 100 100).x -
        (mkPlayer 2 12 Role.crewmate true 150 100).x) *
      ((mkPlayer 1 11 Role.imposter true 100 100).x -
        (mkPlayer 2 12 Role.crewmate true 150 100).x) +
      ((mkPlayer 1 11 Role.imposter true 100 100).y -
        (mkPlayer 2 12 Role.crewmate true 150 100).y) *
      ((mkPlayer 1 11 Role.imposter true 100 100).y -
        (mkPlayer 2 12 Role.crewmate true 150 100).y) > 150 * 150) := by
    show ¬ (((100 : ℚ) - 150) * ((100 : ℚ) - 150) +
      ((100 : ℚ) - 100) * ((100 : ℚ) - 100) > 150 * 150)
    norm_num
  have hkill := killPlayer_success_eq roomKill 1 2 1000
    (mkPlayer 1 11 Role.imposter true 100 100)
    (mkPlayer 2 12 Role.crewmate true 150 100)
    (by decide) (by decide) (by decide) (by decide) (by decide) (by decide)
    hcd hnear
  refine ⟨rfl, ?_, ?_⟩
  · rw [hkill]
  · rw [hkill]
    decide

/-- C5 amended: `killPlayer` rejects with `CannotKill` when the caller is
missing, not an impostor or dead; with `InvalidTarget` when the target is
missing, dead or an impostor; with `CooldownActive` when the elapsed time
since the caller's last kill is below the configured cooldown; with
`TargetTooFar` when the squared caller-target distance exceeds `150²`;
each rejection leaves the room unchanged.  Otherwise — in *any* phase,
there is no phase guard — it marks the target dead, stamps the caller's
cooldown with `nowSec`, and sets the phase to GameOver exactly when the
alive-impostor count is at least the alive-crewmate count (otherwise the
phase is unchanged). -/
theorem killPlayer_spec (room : Room) (pid targetId : Nat) (nowSec : ℚ) :
    (findPlayer room.players pid = none →
      killPlayer room pid targetId nowSec = (room, KillResult.cannotKill)) ∧
    (∀ p, findPlayer room.players pid = some p →
      (¬ p.role = Role.imposter ∨ ¬ p.isAlive = true →
        killPlayer room pid targetId nowSec = (room, KillResult.cannotKill)) ∧
      (p.role = Role.imposter → p.isAlive = true →
        (findPlayer room.players targetId = none →
          killPlayer room pid targetId nowSec = (room, KillResult.invalidTarget)) ∧
        (∀ t, findPlayer room.players targetId = some t →
          (¬ t.isAlive = true ∨ t.role = Role.imposter →
            killPlayer room pid targetId nowSec = (room, KillResult.invalidTarget)) ∧
          (t.isAlive = true → ¬ t.role = Role.imposter →
            (nowSec - (alistGet room.gameState.imposterKillCooldowns p.id).getD 0 <
                room.settings.killCooldown →
              killPlayer room pid targetId nowSec = (room, KillResult.cooldownActive)) ∧
            (¬ (nowSec - (alistGet room.gameState.imposterKillCooldowns p.id).getD 0 <
                room.settings.killCooldown) →
              ((p.x - t.x) * (p.x - t.x) + (p.y - t.y) * (p.y - t.y) > 150 * 150 →
                killPlayer room pid targetId nowSec = (room, KillResult.targetTooFar)) ∧
              (¬ ((p.x - t.x) * (p.x - t.x) + (p.y - t.y) * (p.y - t.y) > 150 * 150) →
                (killPlayer room pid targetId nowSec).2 = KillResult.success ∧
                findPlayer (killPlayer room pid targetId nowSec).1.players targetId =
                  some { t with isAlive := false } ∧
                alistGet (killPlayer room pid targetId nowSec).1.gameState.imposterKillCooldowns
                  p.id = some nowSec ∧
                (killPlayer room pid targetId nowSec).1.gameState.phase =
                  (if List.length (aliveOf (setPlayer room.players { t with isAlive := false })
                        room.gameState.crewmates) ≤
                      List.length (aliveOf (setPlayer room.players { t with isAlive := false })
                        room.gameState.imposters)
                    then Phase.gameOver else room.gameState.phase))))))) := by
  constructor
  · intro h
    unfold killPlayer
    rw [h]
  · intro p hp
    constructor
    · intro hbad
      unfold killPlayer
      rw [hp]
      dsimp only
      rw [if_pos hbad]
    · intro himp halive
      have hcond : ¬ (¬ p.role = Role.imposter ∨ ¬ p.isAlive = true) := by
        intro hor
        exact hor.elim (fun hh => hh himp) (fun hh => hh halive)
      constructor
      · intro hnone
        unfold killPlayer
        rw [hp]
        dsimp only
        rw [if_neg hcond, hnone]
      · intro t ht
        constructor
        · intro hbadT
          unfold killPlayer
          rw [hp]
          dsimp only
          rw [if_neg hcond, ht]
          dsimp only
          rw [if_pos hbadT]
        · intro htAlive htRole
          have hcondT : ¬ (¬ t.isAlive = true ∨ t.role = Role.imposter) := by
            intro hor
            exact hor.elim (fun hh => hh htAlive) htRole
          constructor
          · intro hcd
            unfold killPlayer
            rw [hp]
            dsimp only
            rw [if_neg hcond, ht]
            dsimp only
            rw [if_neg hcondT, if_pos hcd]
          · intro hcdOk
            constructor
            · intro hfar
              unfold killPlayer
              rw [hp]
              dsimp only
              rw [if_neg hcond, ht]
              dsimp only
              rw [if_neg hcondT, if_neg hcdOk, if_pos hfar]
            · intro hnear
              have hkill := killPlayer_success_eq room pid targetId nowSec p t
                hp himp halive ht htAlive htRole hcdOk hnear
              rw [hkill]
              refine ⟨rfl, ?_, alistGet_alistSet_self _ _ _, rfl⟩
              exact findPlayer_setPlayer room.players _ targetId
                (by simpa using findPlayer_id room.players targetId t ht) (by simp [ht])

/-- C5 witness: in `roomKill` (cooldown long expired, target 50 pixels
away) the kill succeeds, the target dies and the cooldown is stamped. -/
theorem killPlayer_spec_witness :
    (killPlayer roomKill 1 2 1000).2 = KillResult.success ∧
    findPlayer (killPlayer roomKill 1 2 1000).1.players 2 =
      some { mkPlayer 2 12 Role.crewmate true 150 100 with isAlive := false } ∧
    alistGet (killPlayer roomKill 1 2 1000).1.gameState.imposterKillCooldowns 1 =
      some 1000 := by
  have hcd : ¬ ((1000 : ℚ) -
      (alistGet roomKill.gameState.imposterKillCooldowns
        (mkPlayer 1 11 Role.imposter true 100 100).id).getD 0 <
      roomKill.settings.killCooldown) := by
    show ¬ ((1000 : ℚ) - (some (0 : ℚ)).getD 0 < 30)
    norm_num
  have hnear : ¬ (((mkPlayer 1 11 Role.imposter true 100 100).x -
        (mkPlayer 2 12 Role.crewmate true 150 100).x) *
      ((mkPlayer 1 11 Role.imposter true 100 100).x -
        (mkPlayer 2 12 Role.crewmate true 150 100).x) +
      ((mkPlayer 1 11 Role.imposter true 100 100).y -
        (mkPlayer 2 12 Role.crewmate true 150 100).y) *
      ((mkPlayer 1 11 Role.imposter true 100 100).y -
        (mkPlayer 2 12 Role.crewmate true 150 100).y) > 150 * 150) := by
    show ¬ (((100 : ℚ) - 150) * ((100 : ℚ) - 150) +
      ((100 : ℚ) - 100) * ((100 : ℚ) - 100) > 150 * 150)
    norm_num
  have h := ((((((killPlayer_spec roomKill 1 2 1000).2
      (mkPlayer 1 11 Role.imposter true 100 100) (by decide)).2
      (by decide) (by decide)).2
      (mkPlayer 2 12 Role.crewmate true 150 100) (by decide)).2
      (by decide) (by decide)).2
      hcd).2 hnear
  exact ⟨h.1, h.2.1, h.2.2.1⟩

/-! ### Shuffle lemmas (length, permutation, impostor count) -/

lemma length_foldl_set (L : List Nat) (init : List Role) :
    (L.foldl (fun rs i => rs.set i Role.imposter) init).length = init.length := by
  induction L generalizing init with
  | nil => rfl
  | cons a t ih => simp [List.foldl_cons, ih, List.length_set]

lemma length_baseRoles (n : Nat) : (baseRoles n).length = n := by
  unfold baseRoles
  rw [length_foldl_set, List.length_replicate]

lemma length_listSwap {α : Type} (l : List α) (i j : Nat) :
    (listSwap l i j).length = l.length := by
  unfold listSwap
  cases h1 : l.get? i <;> cases h2 : l.get? j <;> simp [List.length_set]

lemma length_fyGo {α : Type} (js : Nat → Nat) :
    ∀ (i : Nat) (l : List α), (fyGo js l i).length = l.length := by
  intro i
  induction i with
  | zero => intro l; rfl
  | succ i ih =>
    intro l
    show (fyGo js (listSwap l (i + 1) (js (i + 1))) i).length = l.length
    rw [ih, length_listSwap]

lemma set_perm_cons {α : Type} :
    ∀ (t : List α) (m : Nat) (a b : α), t.get? m = some b →
      List.Perm (b :: t.set m a) (a :: t) := by
  intro t
  induction t with
  | nil => intro m a b h; exact Option.noConfusion h
  | cons c t' ih =>
    intro m a b h
    cases m with
    | zero =>
      have hcb : c = b := Option.some.inj h
      subst hcb
      exact List.Perm.swap a c t'
    | succ m' =>
      have h' : t'.get? m' = some b := h
      show List.Perm (b :: c :: t'.set m' a) (a :: c :: t')
      exact ((List.Perm.swap c b _).trans
        (List.Perm.cons c (ih m' a b h'))).trans (List.Perm.swap a c t')

lemma set_set_perm {α : Type} :
    ∀ (l : List α) (i j : Nat) (a b : α), l.get? i = some a → l.get? j = some b →
      List.Perm ((l.set i b).set j a) l := by
  intro l
  induction l with
  | nil => intro i j a b hi _; exact Option.noConfusion hi
  | cons c t ih =>
    intro i j a b hi hj
    cases i with
    | zero =>
      have hca : c = a := Option.some.inj hi
      subst hca
      cases j with
      | zero =>
        have hcb : c = b := Option.some.inj hj
        subst hcb
        simp
      | succ m =>
        have hj' : t.get? m = some b := hj
        show List.Perm (b :: t.set m c) (c :: t)
        exact set_perm_cons t m c b hj'
    | succ n =>
      have hi' : t.get? n = some a := hi
      cases j with
      | zero =>
        have hcb : c = b := Option.some.inj hj
        subst hcb
        show List.Perm (a :: t.set n c) (c :: t)
        exact set_perm_cons t n c a hi'
      | succ m =>
        have hj' : t.get? m = some b := hj
        show List.Perm (c :: (t.set n b).set m a) (c :: t)
        exact List.Perm.cons c (ih n m a b hi' hj')

lemma listSwap_perm {α : Type} (l : List α) (i j : Nat) :
    List.Perm (listSwap l i j) l := by
  unfold listSwap
  cases hi : l.get? i with
  | none => cases hj : l.get? j <;> exact List.Perm.refl l
  | some a =>
    cases hj : l.get? j with
    | none => exact List.Perm.refl l
    | some b => exact set_set_perm l i j a b hi hj

lemma fyGo_perm {α : Type} (js : Nat → Nat) :
    ∀ (i : Nat) (l : List α), List.Perm (fyGo js l i) l := by
  intro i
  induction i with
  | zero => intro l; exact List.Perm.refl l
  | succ i ih =>
    intro l
    show List.Perm (fyGo js (listSwap l (i + 1) (js (i + 1))) i) l
    exact (ih _).trans (listSwap_perm l (i + 1) (js (i + 1)))

lemma set_append_left_len {α : Type} :
    ∀ (xs ys : List α) (v : α), (xs ++ ys).set xs.length v = xs ++ ys.set 0 v := by
  intro xs
  induction xs with
  | nil => intro ys v; rfl
  | cons x t ih => intro ys v; simp [List.set, ih]

lemma foldl_set_replicate :
    ∀ (k n : Nat), k ≤ n →
      (List.range k).foldl (fun rs i => rs.set i Role.imposter)
        (List.replicate n Role.crewmate) =
      List.replicate k Role.imposter ++ List.replicate (n - k) Role.crewmate := by
  intro k
  induction k with
  | zero => intro n _; simp
  | succ k ih =>
    intro n hk
    have hk' : k ≤ n := Nat.le_of_succ_le hk
    rw [List.range_succ, List.foldl_append, ih n hk']
    simp only [List.foldl_cons, List.foldl_nil]
    have hlen : (List.replicate k Role.imposter).length = k := List.length_replicate k _
    have hset := set_append_left_len (List.replicate k Role.imposter)
      (List.replicate (n - k) Role.crewmate) Role.imposter
    rw [hlen] at hset
    rw [hset]
    have hsplit : n - k = (n - (k + 1)) + 1 := by omega
    rw [hsplit, List.replicate_succ]
    show List.replicate k Role.imposter ++
        (Role.imposter :: List.replicate (n - (k + 1)) Role.crewmate) =
      List.replicate (k + 1) Role.imposter ++ List.replicate (n - (k + 1)) Role.crewmate
    rw [List.replicate_succ', List.append_assoc, List.singleton_append]

lemma numImposters_le (n : Nat) (h : 4 ≤ n) : numImposters n ≤ n := by
  unfold numImposters
  split_ifs <;> omega

lemma count_baseRoles (n : Nat) (h : numImposters n ≤ n) :
    (baseRoles n).count Role.imposter = numImposters n := by
  unfold baseRoles
  rw [foldl_set_replicate (numImposters n) n h, List.count_append,
    List.count_replicate, List.count_replicate]
  simp

lemma count_assignRoles (n : Nat) (js : Nat → Nat) (h : numImposters n ≤ n) :
    (assignRoles n js).count Role.imposter = numImposters n := by
  unfold assignRoles
  rw [(fyGo_perm js (n - 1) (baseRoles n)).count_eq]
  exact count_baseRoles n h

lemma length_assignRoles (n : Nat) (js : Nat → Nat) :
    (assignRoles n js).length = n := by
  unfold assignRoles
  rw [length_fyGo, length_baseRoles]

/-! ### Roster and task-distribution lemmas -/

lemma assignAll_roles :
    ∀ (ps : List Player) (roles : List Role) (i : Nat), roles.length = ps.length →
      (assignAll ps roles i).map (·.role) = roles := by
  intro ps
  induction ps with
  | nil =>
    intro roles i h
    rw [List.length_nil] at h
    rw [List.length_eq_zero.1 h]
    rfl
  | cons p t ih =>
    intro roles i h
    cases roles with
    | nil => exact absurd h (by simp)
    | cons r rs =>
      show r :: (assignAll t rs (i + 1)).map (·.role) = r :: rs
      rw [ih rs (i + 1) (by simpa using h)]

lemma assignAll_ids :
    ∀ (ps : List Player) (roles : List Role) (i : Nat),
      (assignAll ps roles i).map (·.id) = ps.map (·.id) := by
  intro ps
  induction ps with
  | nil =>
    intro roles i
    cases roles <;> rfl
  | cons p t ih =>
    intro roles i
    cases roles with
    | nil => show p.id :: _ = p.id :: _; rw [ih [] (i + 1)]
    | cons r rs => show p.id :: _ = p.id :: _; rw [ih rs (i + 1)]

lemma filter_role_length :
    ∀ (ps : List Player),
      (ps.filter (fun p => decide (p.role = Role.imposter))).length =
        (ps.map (·.role)).count Role.imposter := by
  intro ps
  induction ps with
  | nil => rfl
  | cons p t ih =>
    by_cases hp : p.role = Role.imposter
    · simp [List.filter_cons, List.map_cons, List.count_cons, hp, ih]
    · simp [List.filter_cons, List.map_cons, List.count_cons, hp, ih]

lemma mkTasksFor_assigned (pid cnt : Nat) (pick : Nat → Nat) :
    ∀ t ∈ mkTasksFor pid cnt pick, t.assignedTo = pid := by
  intro t ht
  unfold mkTasksFor at ht
  rcases List.mem_map.1 ht with ⟨k, _, rfl⟩
  rfl

lemma length_mkTasksFor (pid cnt : Nat) (pick : Nat → Nat) :
    (mkTasksFor pid cnt pick).length = cnt := by
  unfold mkTasksFor
  rw [List.length_map, List.length_range]

lemma genTasks_owner :
    ∀ (ps : List Player) (rand : Nat → ℚ) (pick : Nat → Nat → Nat) (i : Nat)
      (t : GTask), t ∈ genTasks ps rand pick i →
        ∃ q ∈ ps, t.assignedTo = q.id ∧ ¬ q.role = Role.imposter := by
  intro ps
  induction ps with
  | nil => intro rand pick i t ht; exact absurd ht (List.not_mem_nil t)
  | cons q ps' ih =>
    intro rand pick i t ht
    rcases List.mem_append.1 ht with hleft | hright
    · by_cases hq : q.role = Role.imposter
      · rw [if_pos hq] at hleft
        exact absurd hleft (List.not_mem_nil t)
      · rw [if_neg hq] at hleft
        exact ⟨q, List.mem_cons_self q ps',
          mkTasksFor_assigned _ _ _ t hleft, hq⟩
    · rcases ih rand pick (i + 1) t hright with ⟨q', hq', hta, hrole⟩
      exact ⟨q', List.mem_cons_of_mem q hq', hta, hrole⟩

lemma genTasks_count_self :
    ∀ (ps : List Player) (rand : Nat → ℚ) (pick : Nat → Nat → Nat) (i : Nat)
      (p : Player), (ps.map (·.id)).Nodup → p ∈ ps → ¬ p.role = Role.imposter →
      ∃ k, ((genTasks ps rand pick i).filter
          (fun t => decide (t.assignedTo = p.id))).length = numTasksOf (rand k) := by
  intro ps
  induction ps with
  | nil => intro rand pick i p _ hp; exact absurd hp (List.not_mem_nil p)
  | cons q ps' ih =>
    intro rand pick i p hnd hp hrole
    have hnd' : (ps'.map (·.id)).Nodup := (List.nodup_cons.1 hnd).2
    have hqnot : q.id ∉ ps'.map (·.id) := (List.nodup_cons.1 hnd).1
    rw [show genTasks (q :: ps') rand pick i =
        (if q.role = Role.imposter then [] else
          mkTasksFor q.id (numTasksOf (rand i)) (pick i)) ++
          genTasks ps' rand pick (i + 1) from rfl,
      List.filter_append, List.length_append]
    rcases List.mem_cons.1 hp with rfl | hp'
    · rw [if_neg hrole]
      have hall : (mkTasksFor p.id (numTasksOf (rand i)) (pick i)).filter
          (fun t => decide (t.assignedTo = p.id)) =
          mkTasksFor p.id (numTasksOf (rand i)) (pick i) :=
        List.filter_eq_self.2 (fun t ht => by
          simp [mkTasksFor_assigned _ _ _ t ht])
      have hnone : (genTasks ps' rand pick (i + 1)).filter
          (fun t => decide (t.assignedTo = p.id)) = [] := by
        rw [List.filter_eq_nil_iff]
        intro t ht
        rcases genTasks_owner ps' rand pick (i + 1) t ht with ⟨q', hq', hta, _⟩
        have : q'.id ∈ ps'.map (·.id) := List.mem_map.2 ⟨q', hq', rfl⟩
        simp only [decide_eq_true_eq]
        rw [hta]
        intro hqq
        exact hqnot (hqq ▸ this)
      rw [hall, hnone, length_mkTasksFor]
      exact ⟨i, by simp⟩
    · have hqp : ¬ q.id = p.id := by
        intro hqq
        have : p.id ∈ ps'.map (·.id) := List.mem_map.2 ⟨p, hp', rfl⟩
        exact hqnot (hqq ▸ this)
      have hblock : ((if q.role = Role.imposter then [] else
          mkTasksFor q.id (numTasksOf (rand i)) (pick i)).filter
            (fun t => decide (t.assignedTo = p.id))) = [] := by
        by_cases hq : q.role = Role.imposter
        · rw [if_pos hq]; rfl
        · rw [if_neg hq, List.filter_eq_nil_iff]
          intro t ht
          have := mkTasksFor_assigned _ _ _ t ht
          simp only [decide_eq_true_eq]
          rw [this]
          exact hqp
      rw [hblock]
      rcases ih rand pick (i + 1) p hnd' hp' hrole with ⟨k, hk⟩
      exact ⟨k, by simpa using hk⟩

lemma numTasksOf_bounds (r : ℚ) (h0 : 0 ≤ r) (h1 : r < 1) :
    3 ≤ numTasksOf r ∧ numTasksOf r ≤ 5 := by
  unfold numTasksOf
  constructor
  · exact Nat.le_add_right 3 _
  · have hup : (⌊r * 3⌋ : ℤ) < 3 := by
      rw [Int.floor_lt]
      push_cast
      linarith
    have : (⌊r * 3⌋ : ℤ).toNat ≤ 2 := by omega
    omega

lemma findPlayer_mem_nodup :
    ∀ (ps : List Player), (ps.map (·.id)).Nodup → ∀ p ∈ ps,
      findPlayer ps p.id = some p := by
  intro ps
  induction ps with
  | nil => intro _ p hp; exact absurd hp (List.not_mem_nil p)
  | cons q t ih =>
    intro hnd p hp
    have hnd' : (t.map (·.id)).Nodup := (List.nodup_cons.1 hnd).2
    have hqnot : q.id ∉ t.map (·.id) := (List.nodup_cons.1 hnd).1
    rcases List.mem_cons.1 hp with rfl | hp'
    · exact List.find?_cons_of_pos _ (by simp)
    · have hqp : ¬ q.id = p.id := by
        intro hqq
        have : p.id ∈ t.map (·.id) := List.mem_map.2 ⟨p, hp', rfl⟩
        exact hqnot (hqq ▸ this)
      unfold findPlayer
      rw [List.find?_cons_of_neg _ (by simpa using hqp)]
      exact ih hnd' p hp'

lemma totalCrewTasks_eq_length (ps : List Player) (ts : List GTask)
    (hnd : (ps.map (·.id)).Nodup)
    (howner : ∀ t ∈ ts, ∃ q ∈ ps, t.assignedTo = q.id ∧ ¬ q.role = Role.imposter) :
    totalCrewTasks ps ts = ts.length := by
  unfold totalCrewTasks
  rw [List.filter_eq_self.2 ?_]
  intro t ht
  rcases howner t ht with ⟨q, hq, hta, hrole⟩
  rw [hta, findPlayer_mem_nodup ps hnd q hq]
  simpa using hrole

/-! ### C4 — role tiers and task distribution at game start -/

/-- C4: for every `startGame` on a roster of at least 4 players (distinct
uuids) and every draw of the randomness, `resetGame` assigns exactly the
tiered impostor count (1 for N ≤ 5, 2 for N ≤ 8, 3 otherwise), gives
every crewmate between 3 and 5 tasks, and sets `totalTasks` to the number
of tasks whose assigned player's role is crewmate — which equals the
total number of generated tasks, impostors owning none. -/
theorem startGame_roles_tasks (room : Room) (js : Nat → Nat) (rand : Nat → ℚ)
    (pick : Nat → Nat → Nat)
    (hN : 4 ≤ room.players.length)
    (hrand : ∀ i, 0 ≤ rand i ∧ rand i < 1)
    (hnd : (room.players.map (·.id)).Nodup) :
    ((resetGame room js rand pick).players.filter
        (fun p => decide (p.role = Role.imposter))).length =
      numImposters room.players.length ∧
    (∀ p ∈ (resetGame room js rand pick).players, ¬ p.role = Role.imposter →
      3 ≤ ((resetGame room js rand pick).gameState.tasks.filter
          (fun t => decide (t.assignedTo = p.id))).length ∧
      ((resetGame room js rand pick).gameState.tasks.filter
          (fun t => decide (t.assignedTo = p.id))).length ≤ 5) ∧
    (resetGame room js rand pick).gameState.totalTasks =
      totalCrewTasks (resetGame room js rand pick).players
        (resetGame room js rand pick).gameState.tasks ∧
    (resetGame room js rand pick).gameState.totalTasks =
      (resetGame room js rand pick).gameState.tasks.length := by
  have hlenr := length_assignRoles room.players.length js
  have hroles := assignAll_roles room.players
    (assignRoles room.players.length js) 0 (by rw [hlenr])
  have hids := assignAll_ids room.players (assignRoles room.players.length js) 0
  have hnd' : ((assignAll room.players
      (assignRoles room.players.length js) 0).map (·.id)).Nodup := by
    rw [hids]; exact hnd
  refine ⟨?_, ?_, rfl, ?_⟩
  · show ((assignAll room.players (assignRoles room.players.length js) 0).filter
        (fun p => decide (p.role = Role.imposter))).length =
      numImposters room.players.length
    rw [filter_role_length, hroles]
    exact count_assignRoles _ js (numImposters_le _ hN)
  · intro p hp hrole
    have hp' : p ∈ assignAll room.players (assignRoles room.players.length js) 0 := hp
    rcases genTasks_count_self
      (assignAll room.players (assignRoles room.players.length js) 0)
      rand pick 0 p hnd' hp' hrole with ⟨k, hk⟩
    have hb := numTasksOf_bounds (rand k) (hrand k).1 (hrand k).2
    constructor
    · show 3 ≤ ((genTasks (assignAll room.players
          (assignRoles room.players.length js) 0) rand pick 0).filter
          (fun t => decide (t.assignedTo = p.id))).length
      rw [hk]
      exact hb.1
    · show ((genTasks (assignAll room.players
          (assignRoles room.players.length js) 0) rand pick 0).filter
          (fun t => decide (t.assignedTo = p.id))).length ≤ 5
      rw [hk]
      exact hb.2
  · show totalCrewTasks (assignAll room.players
        (assignRoles room.players.length js) 0)
      (genTasks (assignAll room.players
        (assignRoles room.players.length js) 0) rand pick 0) =
      (genTasks (assignAll room.players
        (assignRoles room.players.length js) 0) rand pick 0).length
    exact totalCrewTasks_eq_length _ _ hnd'
      (fun t ht => genTasks_owner _ rand pick 0 t ht)

/-- C4 witness: starting `roomFour` (4 players) with concrete draws
yields exactly `numImposters 4 = 1` impostor and a `totalTasks` equal to
the generated task count. -/
theorem startGame_roles_tasks_witness :
    ((resetGame roomFour (fun _ => 0) (fun _ => 0) (fun _ _ => 0)).players.filter
        (fun p => decide (p.role = Role.imposter))).length =
      numImposters roomFour.players.length ∧
    (resetGame roomFour (fun _ => 0) (fun _ => 0) (fun _ _ => 0)).gameState.totalTasks =
      (resetGame roomFour (fun _ => 0) (fun _ => 0)
        (fun _ _ => 0)).gameState.tasks.length := by
  have h := startGame_roles_tasks roomFour (fun _ => 0) (fun _ => 0) (fun _ _ => 0)
    (by decide) (fun i => ⟨le_refl 0, by norm_num⟩) (by decide)
  exact ⟨h.1, h.2.2.2⟩

/-! ### Duplicate-task lemmas -/

lemma completeFirst_length :
    ∀ (ts : List GTask) (tid : String) (pid : Nat),
      (completeFirst ts tid pid).length = ts.length := by
  intro ts
  induction ts with
  | nil => intro tid pid; rfl
  | cons t0 rest ih =>
    intro tid pid
    by_cases h0 : t0.id = tid ∧ t0.assignedTo = pid
    · unfold completeFirst
      rw [if_pos h0]
      rfl
    · unfold completeFirst
      rw [if_neg h0]
      show (completeFirst rest tid pid).length + 1 = rest.length + 1
      rw [ih tid pid]

lemma completeFirst_get?_of_shadowed :
    ∀ (ts : List GTask) (tid : String) (pid : Nat) (j k : Nat) (tj : GTask),
      j < k → ts.get? j = some tj → tj.id = tid → tj.assignedTo = pid →
      (completeFirst ts tid pid).get? k = ts.get? k := by
  intro ts
  induction ts with
  | nil => intro tid pid j k tj _ hj _ _; exact Option.noConfusion hj
  | cons t0 rest ih =>
    intro tid pid j k tj hjk hj hid hass
    by_cases h0 : t0.id = tid ∧ t0.assignedTo = pid
    · unfold completeFirst
      rw [if_pos h0]
      cases k with
      | zero => exact absurd hjk (Nat.not_lt_zero j)
      | succ k' => rfl
    · unfold completeFirst
      rw [if_neg h0]
      cases j with
      | zero =>
        have ht0 : t0 = tj := Option.some.inj hj
        subst ht0
        exact absurd ⟨hid, hass⟩ h0
      | succ j' =>
        cases k with
        | zero => exact absurd hjk (Nat.not_lt_zero _)
        | succ k' =>
          show (completeFirst rest tid pid).get? k' = rest.get? k'
          exact ih tid pid j' k' tj (Nat.lt_of_succ_lt_succ hjk) hj hid hass

lemma completeFirst_get?_ne :
    ∀ (ts : List GTask) (tid : String) (pid : Nat) (k : Nat) (tk : GTask),
      ts.get? k = some tk → ¬ (tk.id = tid ∧ tk.assignedTo = pid) →
      (completeFirst ts tid pid).get? k = some tk := by
  intro ts
  induction ts with
  | nil => intro tid pid k tk hk _; exact Option.noConfusion hk
  | cons t0 rest ih =>
    intro tid pid k tk hk hne
    by_cases h0 : t0.id = tid ∧ t0.assignedTo = pid
    · unfold completeFirst
      rw [if_pos h0]
      cases k with
      | zero =>
        have ht0 : t0 = tk := Option.some.inj hk
        subst ht0
        exact absurd h0 hne
      | succ k' => exact hk
    · unfold completeFirst
      rw [if_neg h0]
      cases k with
      | zero => exact hk
      | succ k' => exact ih tid pid k' tk hk hne

lemma completeFirst_get?_fields :
    ∀ (ts : List GTask) (tid : String) (pid : Nat) (k : Nat) (tk : GTask),
      ts.get? k = some tk →
      ∃ tk', (completeFirst ts tid pid).get? k = some tk' ∧
        tk'.id = tk.id ∧ tk'.assignedTo = tk.assignedTo := by
  intro ts
  induction ts with
  | nil => intro tid pid k tk hk; exact Option.noConfusion hk
  | cons t0 rest ih =>
    intro tid pid k tk hk
    by_cases h0 : t0.id = tid ∧ t0.assignedTo = pid
    · unfold completeFirst
      rw [if_pos h0]
      cases k with
      | zero =>
        have ht0 : t0 = tk := Option.some.inj hk
        subst ht0
        exact ⟨{ t0 with completed := true }, rfl, rfl, rfl⟩
      | succ k' => exact ⟨tk, hk, rfl, rfl⟩
    · unfold completeFirst
      rw [if_neg h0]
      cases k with
      | zero =>
        have ht0 : t0 = tk := Option.some.inj hk
        subst ht0
        exact ⟨t0, rfl, rfl, rfl⟩
      | succ k' => exact ih tid pid k' tk hk

lemma completeTask_tasks_cases (room : Room) (pid : Nat) (tid : String) :
    (completeTask room pid tid).1.gameState.tasks = room.gameState.tasks ∨
    ∃ ownerId, (completeTask room pid tid).1.gameState.tasks =
      completeFirst room.gameState.tasks tid ownerId := by
  unfold completeTask
  cases hp : findPlayer room.players pid with
  | none => exact Or.inl rfl
  | some p =>
    dsimp only
    by_cases hbad : ¬ p.isAlive = true ∨ p.role = Role.imposter
    · rw [if_pos hbad]
      exact Or.inl rfl
    · rw [if_neg hbad]
      cases hf : room.gameState.tasks.find?
          (fun t => decide (t.id = tid ∧ t.assignedTo = p.id)) with
      | none => exact Or.inl rfl
      | some t =>
        dsimp only
        by_cases hc : t.completed
        · rw [if_pos hc]
          exact Or.inl rfl
        · rw [if_neg hc]
          exact Or.inr ⟨p.id, rfl⟩

lemma completed_lt_of_uncompleted (ts : List GTask) (k : Nat) (tk : GTask)
    (h : ts.get? k = some tk) (hc : tk.completed = false) :
    countCompleted ts < ts.length := by
  unfold countCompleted
  exact List.length_filter_lt_length_iff_exists.2
    ⟨tk, List.get?_mem h, by simp [hc]⟩

lemma runTasks_dup_invariant (j k : Nat) (hjk : j < k) :
    ∀ (calls : List (Nat × String)) (room : Room) (tj tk : GTask),
      room.gameState.tasks.get? j = some tj →
      room.gameState.tasks.get? k = some tk →
      tj.id = tk.id → tj.assignedTo = tk.assignedTo → tk.completed = false →
      ∃ tj' tk', (runTasks room calls).gameState.tasks.get? j = some tj' ∧
        (runTasks room calls).gameState.tasks.get? k = some tk' ∧
        tj'.id = tk'.id ∧ tj'.assignedTo = tk'.assignedTo ∧ tk'.completed = false ∧
        (runTasks room calls).gameState.tasks.length = room.gameState.tasks.length := by
  intro calls
  induction calls with
  | nil =>
    intro room tj tk hj hk hid hass hc
    exact ⟨tj, tk, hj, hk, hid, hass, hc, rfl⟩
  | cons c rest ih =>
    intro room tj tk hj hk hid hass hc
    rcases completeTask_tasks_cases room c.1 c.2 with hsame | ⟨ownerId, hcf⟩
    · have h1 := ih (completeTask room c.1 c.2).1 tj tk
        (by rw [hsame]; exact hj) (by rw [hsame]; exact hk) hid hass hc
      rcases h1 with ⟨tj', tk', a1, a2, a3, a4, a5, a6⟩
      exact ⟨tj', tk', a1, a2, a3, a4, a5,
        a6.trans (congrArg List.length hsame)⟩
    · rcases completeFirst_get?_fields room.gameState.tasks c.2 ownerId j tj hj
        with ⟨tj₁, hj₁, hjid, hjass⟩
      have hk₁ : (completeFirst room.gameState.tasks c.2 ownerId).get? k = some tk := by
        by_cases hmatch : tk.id = c.2 ∧ tk.assignedTo = ownerId
        · exact (completeFirst_get?_of_shadowed room.gameState.tasks c.2 ownerId j k tj
            hjk hj (hid.trans hmatch.1) (hass.trans hmatch.2)).trans hk
        · exact completeFirst_get?_ne room.gameState.tasks c.2 ownerId k tk hk hmatch
      have h1 := ih (completeTask room c.1 c.2).1 tj₁ tk
        (by rw [hcf]; exact hj₁) (by rw [hcf]; exact hk₁)
        (by rw [hjid, hid]) (by rw [hjass, hass]) hc
      rcases h1 with ⟨tj', tk', a1, a2, a3, a4, a5, a6⟩
      have hlen : (completeTask room c.1 c.2).1.gameState.tasks.length =
          room.gameState.tasks.length := by
        rw [hcf, completeFirst_length]
      exact ⟨tj', tk', a1, a2, a3, a4, a5, a6.trans hlen⟩

/-! ### C9 — duplicate task ids and unreachable completion -/

/-- C9: `resetGame` clones templates without fresh ids, so a crewmate can
receive two tasks with the same id (in `roomFour` with constant draws,
player 1 gets three `fix_wires` clones); `completeTask` always selects
the first matching task, so when the first match is already completed the
call changes no state (and still acks `success:true`); and a later
same-id same-owner duplicate with `completed = false` stays uncompleted
under every sequence of `completeTask` calls, so when `totalTasks` equals
the task count the completed count stays strictly below `totalTasks`. -/
theorem duplicate_task_ids :
    (((resetGame roomFour (fun _ => 0) (fun _ => 0) (fun _ _ => 0)).gameState.tasks.filter
        (fun t => decide (t.assignedTo = 1 ∧ t.id = "fix_wires"))).length = 3) ∧
    (∀ (room : Room) (pid : Nat) (tid : String) (p : Player) (t : GTask),
      findPlayer room.players pid = some p → p.isAlive = true →
      ¬ p.role = Role.imposter →
      room.gameState.tasks.find?
        (fun u => decide (u.id = tid ∧ u.assignedTo = p.id)) = some t →
      t.completed = true →
      completeTask room pid tid = (room, some true)) ∧
    (∀ (room : Room) (j k : Nat) (tj tk : GTask), j < k →
      room.gameState.tasks.get? j = some tj →
      room.gameState.tasks.get? k = some tk →
      tj.id = tk.id → tj.assignedTo = tk.assignedTo → tk.completed = false →
      ∀ calls, ∃ tk', (runTasks room calls).gameState.tasks.get? k = some tk' ∧
        tk'.completed = false ∧
        (room.gameState.totalTasks = room.gameState.tasks.length →
          countCompleted (runTasks room calls).gameState.tasks <
            room.gameState.totalTasks)) := by
  refine ⟨?_, ?_, ?_⟩
  · have hgen : (resetGame roomFour (fun _ => 0) (fun _ => 0)
        (fun _ _ => 0)).gameState.tasks =
        mkTasksFor 1 (numTasksOf 0) (fun _ => 0) ++
          (mkTasksFor 2 (numTasksOf 0) (fun _ => 0) ++
            (mkTasksFor 3 (numTasksOf 0) (fun _ => 0) ++ ([] ++ []))) := rfl
    have h3 : numTasksOf 0 = 3 := by simp [numTasksOf]
    rw [h3] at hgen
    have hmk : ∀ pid : Nat, mkTasksFor pid 3 (fun _ => 0) =
        [wireTask pid false, wireTask pid false, wireTask pid false] :=
      fun pid => rfl
    rw [hmk 1, hmk 2, hmk 3] at hgen
    rw [hgen]
    decide
  · intro room pid tid p t hp halive hrole hfind hdone
    have hcond : ¬ (¬ p.isAlive = true ∨ p.role = Role.imposter) := by
      intro hor
      exact hor.elim (fun hh => hh halive) hrole
    unfold completeTask
    rw [hp]
    dsimp only
    rw [if_neg hcond, hfind]
    dsimp only
    rw [if_pos hdone]
  · intro room j k tj tk hjk hj hk hid hass hc calls
    rcases runTasks_dup_invariant j k hjk calls room tj tk hj hk hid hass hc with
      ⟨tj', tk', _, a2, _, _, a5, a6⟩
    refine ⟨tk', a2, a5, ?_⟩
    intro htt
    have hlt := completed_lt_of_uncompleted
      (runTasks room calls).gameState.tasks k tk' a2 a5
    rw [a6] at hlt
    rw [htt]
    exact hlt

/-- C9 witness: in `roomDupDone` (first clone completed) the call changes
nothing and acks `success:true`; in `roomDupOpen` the later duplicate at
index 1 stays uncompleted after a `completeTask` call and the completed
count stays below `totalTasks`. -/
theorem duplicate_task_ids_witness :
    completeTask roomDupDone 1 "fix_wires" = (roomDupDone, some true) ∧
    (∃ tk', (runTasks roomDupOpen [(1, "fix_wires")]).gameState.tasks.get? 1 =
        some tk' ∧ tk'.completed = false ∧
      countCompleted (runTasks roomDupOpen [(1, "fix_wires")]).gameState.tasks <
        roomDupOpen.gameState.totalTasks) := by
  constructor
  · exact duplicate_task_ids.2.1 roomDupDone 1 "fix_wires"
      (mkPlayer 1 11 Role.crewmate true 800 600) (wireTask 1 true)
      (by decide) (by decide) (by decide) (by decide) (by decide)
  · obtain ⟨tk', h1, h2, h3⟩ := duplicate_task_ids.2.2 roomDupOpen 0 1
      (wireTask 1 false) (wireTask 1 false)
      (by decide) (by decide) (by decide) rfl rfl (by decide) [(1, "fix_wires")]
    exact ⟨tk', h1, h2, h3 (by decide)⟩
